import Mathlib

/-!
# TransferPilot transfer engine — verification of the specification

Shallow embedding of `src/src-tauri/src/transfer.rs` (and the data types it
uses from `src/src-tauri/src/main.rs`).

Modelling conventions:

* A filesystem path (`PathBuf`) is a list of components, `MPath := List String`;
  `Path::join` is list append, `file_name` is the last component.
* `u64` arithmetic that the source performs with `saturating_add` is modelled
  on `Nat` with an explicit saturation bound `U64MAX`.
* Fallible I/O primitives (metadata reads, the streamed copy, hashing,
  `remove_file`, the `fs::write` calls) are supplied by oracles: the embedding
  is a deterministic function of the world (an `FS` value) plus the oracle
  answers, mirroring the source's control flow exactly.  Distinct syscalls get
  independent oracle answers because the real filesystem can change between
  calls.
* The `mime_guess` crate (an external dependency, not part of this repository)
  is abstracted as a function `mt : String → MimeFamily` giving the top-level
  MIME family of a lowercased extension; the source only compares the family
  against IMAGE / VIDEO / AUDIO.
* Progress events (`emit_progress`) are fire-and-forget; we record the trace of
  emitted phases as a `List String`.  `f64` percentages (`pct`) are modelled
  over `ℚ`; Rust's `clamp(0.0, 100.0)` is `min 100 (max 0 _)`.
-/

/-- Saturation bound of Rust's `u64`. -/
def U64MAX : Nat := 2 ^ 64 - 1

/-- `u64::saturating_add`. -/
def satAdd64 (a b : Nat) : Nat := min (a + b) U64MAX

/-- A filesystem path, as its list of components. -/
abbrev MPath := List String

/-- Is `p` an initial segment of `q`?  Models `Path::strip_prefix` succeeding. -/
def initSeg : MPath → MPath → Bool
  | [], _ => true
  | _, [] => false
  | a :: p, b :: q => a = b && initSeg p q

/-- `full.strip_prefix(p).unwrap_or(&full)` (transfer.rs line 179): the path of
`full` relative to `p`, or `full` itself when `p` is not a prefix. -/
def relTo (p full : MPath) : MPath :=
  if initSeg p full then full.drop p.length else full

/-- The `file_name()` of a path: its last component, if any. -/
def lastComp (p : MPath) : Option String := p.getLast?

/-- Split the `Path::file_name` string into Rust's `(file_stem, extension)`:
the extension is the part after the last dot, provided that dot is not the
leading character; a name with no such dot has no extension. -/
def lastDotSplit : List Char → Option (List Char × List Char)
  | [] => none
  | c :: cs =>
    match lastDotSplit cs with
    | some (p, q) => some (c :: p, q)
    | none => if c = '.' then some ([], cs) else none

/-- Rust `Path::file_stem` / `Path::extension` on a file-name string. -/
def stemExt (name : String) : String × Option String :=
  match name.toList with
  | [] => ("", none)
  | c :: rest =>
    match lastDotSplit rest with
    | none => (name, none)
    | some (p, q) => (String.mk (c :: p), some (String.mk q))

/-- `path.extension()` in Rust: the extension of the last component. -/
def pathExt (p : MPath) : Option String :=
  (lastComp p).bind fun n => (stemExt n).2

/-- Top-level MIME family, as far as `category_for` consults it.  The source
computes `mime_guess::from_ext(&ext).first_or_octet_stream().type_()` and
compares it with IMAGE, VIDEO and AUDIO; everything else falls through. -/
inductive MimeFamily where
  | image
  | video
  | audio
  | other
deriving DecidableEq, Repr

/-- The document extension list of transfer.rs lines 121-123. -/
def docExts : List String :=
  ["pdf", "doc", "docx", "ppt", "pptx", "xls", "xlsx", "txt", "md", "rtf", "csv", "json"]

/-- The archive extension list of transfer.rs line 127. -/
def archiveExts : List String := ["zip", "7z", "rar", "tar", "gz", "bz2"]

/-- The source-code extension list of transfer.rs lines 129-132. -/
def codeExts : List String :=
  ["js", "ts", "tsx", "jsx", "py", "go", "java", "kt", "rs", "c", "cpp", "h", "hpp", "cs",
   "rb", "php", "sh", "yaml", "yml", "toml"]

/-- Lowercase a string character by character (models `str::to_lowercase`). -/
def lowerStr (s : String) : String := String.mk (s.toList.map Char.toLower)

/-- The normalized (lowercased, defaulted-to-empty) extension the source
computes at transfer.rs lines 107-111. -/
def normExt (p : MPath) : String := lowerStr ((pathExt p).getD "")

/-- `category_for` (transfer.rs lines 106-148), parametric in the external
`mime_guess` lookup `mt`.  Returns `(category, normalized_extension)`. -/
def category_for (mt : String → MimeFamily) (p : MPath) : String × String :=
  let ext := normExt p
  let cat :=
    if mt ext = .image then "Images"
    else if mt ext = .video then "Videos"
    else if mt ext = .audio then "Audio"
    else if ext ∈ docExts then "Documents"
    else if ext ∈ archiveExts then "Archives"
    else if ext ∈ codeExts then "Code"
    else "Other"
  (cat, if ext = "" then "noext" else ext)

/-- Modelled from the spec's words (section 4.1), for the refinement claim C8:
category assignment by first match in the order image/video/audio MIME family,
then documents, archives, code, `Other`; an empty normalized extension is
reported as the token `noext`.  A pure function of the normalized extension. -/
def classify_spec (mt : String → MimeFamily) (ext : String) : String × String :=
  let cat :=
    if mt ext = .image then "Images"
    else if mt ext = .video then "Videos"
    else if mt ext = .audio then "Audio"
    else if ext ∈ docExts then "Documents"
    else if ext ∈ archiveExts then "Archives"
    else if ext ∈ codeExts then "Code"
    else "Other"
  (cat, if ext = "" then "noext" else ext)

/-- `pct` (transfer.rs lines 55-61) over `ℚ`: percentage of `bytes_done` in
`bytes_total`, `0` for a zero total, clamped to `[0, 100]`. -/
def pct (bytes_done bytes_total : Nat) : ℚ :=
  if bytes_total = 0 then 0
  else min 100 (max 0 ((bytes_done : ℚ) / (bytes_total : ℚ) * 100))

/-- One manifest row (`ManifestItem`, transfer.rs lines 321-330). -/
structure MManifestItem where
  source : MPath
  dest : MPath
  category : String
  ext : String
  bytes : Nat
  status : String
  error : Option String
deriving DecidableEq, Repr

/-- Contents of a file in the modelled filesystem. -/
inductive FileData where
  | bytes (bs : List Nat)
  | text (s : String)
  | pathRef (p : MPath)
  | manifestDoc (rows : List MManifestItem)
deriving DecidableEq

/-- The modelled filesystem world, as the answers it gives to the engine's
queries.  `files` backs `exists`-style checks only indirectly: since the real
world can change between syscalls, `isFile`, `dirs`, `walk`, `meta` and
`pathExists` are independent oracle views (trace semantics). -/
structure FS where
  /-- Contents seen by reads/writes; `none` means no file at that path. -/
  files : MPath → Option FileData
  /-- Answer of `Path::is_file` during scanning. -/
  isFile : MPath → Bool
  /-- Answer of `Path::is_dir` during scanning. -/
  dirs : MPath → Bool
  /-- The `WalkDir` traversal of a folder: the Ok entries, in traversal order,
  each with its path and the answer of `file_type().is_file()`.  Err entries
  are dropped by the source's `filter_map(|e| e.ok())` and so are not listed. -/
  walk : MPath → List (MPath × Bool)
  /-- Answer of `fs::metadata(..).len()` at scan-totals/preflight time, or the
  error message. -/
  meta : MPath → Except String Nat
  /-- Answer of `Path::exists` (used by the conflict check, `unique_dest_path`
  and the README-presence check). -/
  pathExists : MPath → Bool

/-- Write (create or overwrite) a file in the model. -/
def FS.writeFile (fs : FS) (p : MPath) (d : FileData) : FS :=
  { fs with files := fun q => if q = p then some d else fs.files q }

/-- `fs::remove_file` succeeding in the model. -/
def FS.removeFile (fs : FS) (p : MPath) : FS :=
  { fs with files := fun q => if q = p then none else fs.files q }

/-- `PickedItem` (main.rs lines 22-26). -/
structure MPickedItem where
  kind : String
  path : MPath
deriving DecidableEq, Repr

/-- `FileEntry` (transfer.rs lines 30-36): a concrete file to transfer, with
`folder_rel = some (<folder_basename> :: <relative path inside the folder>)`
iff it came from a folder pick. -/
structure MFileEntry where
  src : MPath
  folder_rel : Option MPath
deriving DecidableEq, Repr

/-- The entries contributed by one picked item (the body of the loop of
`scan_entries`, transfer.rs lines 155-189). -/
def scanItem (fs : FS) (it : MPickedItem) : List MFileEntry :=
  if it.kind = "file" then
    if fs.isFile it.path then [{ src := it.path, folder_rel := none }] else []
  else if fs.dirs it.path then
    let folder_base := (lastComp it.path).getD "Folder"
    (fs.walk it.path).filterMap fun w =>
      if w.2 then
        some { src := w.1, folder_rel := some (folder_base :: relTo it.path w.1) }
      else none
  else []

/-- `scan_entries` (transfer.rs lines 152-192).  The source returns
`Ok(out)` unconditionally, so the model returns the list directly. -/
def scan_entries (fs : FS) (items : List MPickedItem) : List MFileEntry :=
  items.flatMap (scanItem fs)

/-- `Preflight` (main.rs lines 28-37); the two count maps are modelled as
functions since `HashMap` ordering is irrelevant. -/
structure MPreflight where
  total_files : Nat
  total_folders : Nat
  total_bytes : Nat
  dest_avail_bytes : Nat
  will_fit : Bool
  by_category : String → Nat
  by_extension : String → Nat

/-- `*map.entry(k).or_insert(0) += 1` on the modelled count map. -/
def bump (m : String → Nat) (k : String) : String → Nat :=
  fun x => if x = k then m k + 1 else m x

/-- The metadata/aggregation loop of `preflight_scan` (transfer.rs lines
201-208): any metadata failure aborts; byte totals use `saturating_add`. -/
def preflightFold (mt : String → MimeFamily) (fs : FS) :
    List MFileEntry → Nat → (String → Nat) → (String → Nat) →
    Except String (Nat × (String → Nat) × (String → Nat))
  | [], total, bc, be => .ok (total, bc, be)
  | ent :: rest, total, bc, be =>
    match fs.meta ent.src with
    | .error e => .error ("metadata error: " ++ e)
    | .ok len =>
      let (cat, ext) := category_for mt ent.src
      preflightFold mt fs rest (satAdd64 total len) (bump bc cat) (bump be ("." ++ ext))

/-- `preflight_scan` (transfer.rs lines 194-221).  `avail` is the result of
`avail_bytes_for_mount`; the source applies `.unwrap_or(0)` to it. -/
def preflight_scan (mt : String → MimeFamily) (fs : FS) (avail : Except String Nat)
    (items : List MPickedItem) : Except String MPreflight :=
  match preflightFold mt fs (scan_entries fs items) 0 (fun _ => 0) (fun _ => 0) with
  | .error e => .error e
  | .ok (total_bytes, by_category, by_extension) =>
    .ok { total_files := (scan_entries fs items).length
          total_folders := (items.filter (fun x => x.kind = "folder")).length
          total_bytes := total_bytes
          dest_avail_bytes := avail.toOption.getD 0
          will_fit := decide (avail.toOption.getD 0 ≥ total_bytes)
          by_category := by_category
          by_extension := by_extension }

/-- The `" (N)"`-suffixed candidate file name of `unique_dest_path`
(transfer.rs lines 237-241). -/
def candName (stem ext : String) (i : Nat) : String :=
  if ext = "" then stem ++ " (" ++ toString i ++ ")"
  else stem ++ " (" ++ toString i ++ ")." ++ ext

/-- `dest.file_stem().and_then(to_str).unwrap_or("file")` (transfer.rs 233). -/
def destStem (dest : MPath) : String :=
  match lastComp dest with
  | none => "file"
  | some n => (stemExt n).1

/-- `dest.extension().and_then(to_str).unwrap_or("")` (transfer.rs 234). -/
def destExtn (dest : MPath) : String :=
  match lastComp dest with
  | none => ""
  | some n => ((stemExt n).2).getD ""

/-- `dest.parent().unwrap_or_else(|| Path::new("."))` (transfer.rs 235). -/
def destParent (dest : MPath) : MPath :=
  if dest = [] then ["."] else dest.dropLast

/-- The `i`-th rename candidate `parent.join(name)` (transfer.rs 242). -/
def renameCandidate (dest : MPath) (i : Nat) : MPath :=
  destParent dest ++ [candName (destStem dest) (destExtn dest) i]

/-- The candidate-search loop of `unique_dest_path` (transfer.rs lines
236-246), with explicit fuel; the source iterates `i` over `1..=9999`. -/
def findFreeName (fs : FS) (parent : MPath) (stem ext : String) :
    Nat → Nat → Option MPath
  | 0, _ => none
  | fuel + 1, i =>
    let candidate := parent ++ [candName stem ext i]
    if fs.pathExists candidate then findFreeName fs parent stem ext fuel (i + 1)
    else some candidate

/-- `unique_dest_path` (transfer.rs lines 229-248): the first free
`stem (N).ext` candidate for `N` in `1..=9999`, the original path when it is
already free, and the original (colliding) path when the search is exhausted. -/
def unique_dest_path (fs : FS) (dest : MPath) : MPath :=
  if ¬ fs.pathExists dest then dest
  else
    match findFreeName fs (destParent dest) (destStem dest) (destExtn dest) 9999 1 with
    | some c => c
    | none => dest

/-- The destination path computation of `start_transfer` (transfer.rs lines
457-471): `<session_dir>/Files/<filename>` for loose file picks,
`<session_dir>/Folders/<folder_rel>` for folder-pick entries. -/
def destPath (session_dir : MPath) (ent : MFileEntry) : MPath :=
  let dst_rel := match ent.folder_rel with
    | some rel => "Folders" :: rel
    | none => ["Files", (lastComp ent.src).getD "file"]
  session_dir ++ dst_rel

/-- Outcome of one `copy_file_streamed` call (transfer.rs lines 250-303), as
seen by the caller, together with its effect on the destination file.
`cancelled` always carries the partial contents because the destination is
created before the first cancellation poll; an I/O error may or may not have
created the destination (open/mkdir errors happen before creation). -/
inductive CopyResult where
  | ok (written : List Nat)
  | cancelled (written : List Nat)
  | ioErr (msg : String) (written : Option (List Nat))
deriving DecidableEq, Repr

/-- Oracle answers for the fallible per-entry operations of the executor loop
(transfer.rs lines 434-634), one value per entry index. -/
structure EntryIO where
  /-- Value of the cancel flag at the check before the entry starts (line 437). -/
  preCancel : Bool
  /-- `fs::metadata(&ent.src).len()` at line 453, or the error message. -/
  srcMeta : Except String Nat
  /-- Result of the streamed copy. -/
  copy : CopyResult
  /-- Number of throttled mid-copy progress emissions (timing-dependent). -/
  copyEmits : Nat
  /-- Total byte count the copy loop added to `bytes_done` (saturating). -/
  bytesCopied : Nat
  /-- `fs::metadata(&dst).len()` during size verification (line 558). -/
  dstMetaLen : Except String Nat
  /-- `sha256_file(&ent.src)` (line 576): the hex digest or the error message. -/
  shaSrc : Except String String
  /-- `sha256_file(&dst)` (line 577). -/
  shaDst : Except String String
  /-- `fs::remove_file(&ent.src)` (line 584): `none` on success. -/
  removeErr : Option String

/-- Mutable state of the executor loop. -/
structure RunState where
  fs : FS
  /-- Phases of the progress events emitted so far, in order. -/
  events : List String
  manifest : List MManifestItem
  copied_files : Nat
  moved_files : Nat
  skipped_files : Nat
  error_files : Nat
  bytes_done : Nat

/-- Append one emitted progress phase. -/
def pushEvent (st : RunState) (phase : String) : RunState :=
  { st with events := st.events ++ [phase] }

/-- How one entry left the loop: proceed to the next entry, `break` after a
cancellation, or propagate a fatal error out of `start_transfer` via `?`. -/
inductive StepOut where
  | cont (st : RunState)
  | stopCancelled (st : RunState)
  | fatal (st : RunState) (msg : String)

/-- Immutable per-run context of the executor loop. -/
structure Ctx where
  mt : String → MimeFamily
  copy_mode : String
  conflict_policy : String
  verify_mode : String
  session_dir : MPath

/-- Build one manifest row. -/
def mkRow (src dst : MPath) (cat ext : String) (bytes : Nat) (status : String)
    (error : Option String) : MManifestItem :=
  { source := src, dest := dst, category := cat, ext := ext, bytes := bytes,
    status := status, error := error }

/-- Verification, move cleanup and manifest recording (transfer.rs lines
583-633), entered with `err` the error of the copy/verify stage so far. -/
def moveRecord (ctx : Ctx) (st : RunState) (ent : MFileEntry) (io : EntryIO)
    (bytes : Nat) (cat ext : String) (dst : MPath) (err : Option String) : StepOut :=
  let step :=
    if err = none ∧ ctx.copy_mode = "move" then
      match io.removeErr with
      | some e => (some ("move cleanup failed: " ++ e), "copied", st.fs)
      | none => (none, "moved", st.fs.removeFile ent.src)
    else (err, "copied", st.fs)
  let st := { st with fs := step.2.2 }
  let st :=
    match step.1 with
    | some e =>
      { st with error_files := st.error_files + 1,
                manifest := st.manifest ++ [mkRow ent.src dst cat ext bytes "error" (some e)] }
    | none =>
      let st :=
        if ctx.copy_mode = "move" then { st with moved_files := st.moved_files + 1 }
        else { st with copied_files := st.copied_files + 1 }
      { st with manifest := st.manifest ++ [mkRow ent.src dst cat ext bytes step.2.1 none] }
  .cont (pushEvent st "copying")

/-- State after the start-of-file `copying` emit (transfer.rs 497-508), the
throttled mid-copy emits and the saturating `bytes_done` accumulation of
`copy_file_streamed`. -/
def postCopyBase (st : RunState) (io : EntryIO) : RunState :=
  { st with events := (st.events ++ ["copying"]) ++ List.replicate io.copyEmits "copying",
            bytes_done := satAdd64 st.bytes_done io.bytesCopied }

/-- Record the bytes the copy attempt left at the destination. -/
def withWrite (st : RunState) (dst : MPath) (w : List Nat) : RunState :=
  { st with fs := st.fs.writeFile dst (.bytes w) }

/-- The copy, verify and record stages for one entry (transfer.rs lines
497-633), after conflict resolution fixed the destination `dst`. -/
def copyVerifyRecord (ctx : Ctx) (st : RunState) (ent : MFileEntry) (io : EntryIO)
    (bytes : Nat) (cat ext : String) (dst : MPath) : StepOut :=
  match io.copy with
  | .cancelled written =>
    .stopCancelled (pushEvent
      { withWrite (postCopyBase st io) dst written with
        manifest := st.manifest ++ [mkRow ent.src dst cat ext bytes "cancelled" none] }
      "cancelled")
  | .ioErr msg written =>
    moveRecord ctx
      (match written with
       | some w => withWrite (postCopyBase st io) dst w
       | none => postCopyBase st io)
      ent io bytes cat ext dst (some msg)
  | .ok written =>
    if ctx.verify_mode = "size" then
      match io.dstMetaLen with
      | .error e =>
        .fatal (withWrite (postCopyBase st io) dst written) ("dst metadata error: " ++ e)
      | .ok dlen =>
        moveRecord ctx (withWrite (postCopyBase st io) dst written) ent io bytes cat ext dst
          (if dlen ≠ bytes then some "verify failed: size mismatch" else none)
    else if ctx.verify_mode = "sha256" then
      match io.shaSrc with
      | .error e =>
        .fatal (pushEvent (withWrite (postCopyBase st io) dst written) "verifying") e
      | .ok a =>
        match io.shaDst with
        | .error e =>
          .fatal (pushEvent (withWrite (postCopyBase st io) dst written) "verifying") e
        | .ok b =>
          moveRecord ctx (pushEvent (withWrite (postCopyBase st io) dst written) "verifying")
            ent io bytes cat ext dst
            (if a ≠ b then some "verify failed: sha256 mismatch" else none)
    else
      moveRecord ctx (withWrite (postCopyBase st io) dst written) ent io bytes cat ext dst none

/-- One iteration of the executor's entry loop (transfer.rs lines 434-634). -/
def processEntry (ctx : Ctx) (st : RunState) (ent : MFileEntry) (io : EntryIO) : StepOut :=
  if io.preCancel then
    .stopCancelled (pushEvent st "cancelled")
  else
    match io.srcMeta with
    | .error e => .fatal st ("metadata error: " ++ e)
    | .ok bytes =>
      if st.fs.pathExists (destPath ctx.session_dir ent) then
        if ctx.conflict_policy = "overwrite" then
          copyVerifyRecord ctx st ent io bytes (category_for ctx.mt ent.src).1
            (category_for ctx.mt ent.src).2 (destPath ctx.session_dir ent)
        else if ctx.conflict_policy = "skip" then
          .cont { st with
            skipped_files := st.skipped_files + 1,
            manifest := st.manifest ++
              [mkRow ent.src (destPath ctx.session_dir ent) (category_for ctx.mt ent.src).1
                (category_for ctx.mt ent.src).2 bytes "skipped" none] }
        else
          copyVerifyRecord ctx st ent io bytes (category_for ctx.mt ent.src).1
            (category_for ctx.mt ent.src).2 (unique_dest_path st.fs (destPath ctx.session_dir ent))
      else
        copyVerifyRecord ctx st ent io bytes (category_for ctx.mt ent.src).1
          (category_for ctx.mt ent.src).2 (destPath ctx.session_dir ent)

/-- How the whole entry loop ended. -/
inductive LoopExit where
  | finished
  | cancelled
  | fatal (msg : String)
deriving DecidableEq, Repr

/-- The executor's entry loop (transfer.rs lines 434-634): the `EntryIO`
oracle is indexed by entry position. -/
def runLoop (ctx : Ctx) (io : Nat → EntryIO) :
    RunState → Nat → List MFileEntry → RunState × LoopExit
  | st, _, [] => (st, .finished)
  | st, i, ent :: rest =>
    match processEntry ctx st ent (io i) with
    | .cont st2 => runLoop ctx io st2 (i + 1) rest
    | .stopCancelled st2 => (st2, .cancelled)
    | .fatal st2 msg => (st2, .fatal msg)

/-- `TransferSummary` (main.rs lines 39-51). -/
structure MTransferSummary where
  started_at : String
  finished_at : String
  duration_ms : Nat
  total_files : Nat
  total_bytes : Nat
  copied_files : Nat
  moved_files : Nat
  skipped_files : Nat
  error_files : Nat
  output_session_dir : MPath
deriving DecidableEq, Repr

/-- Oracle answers for the run-level fallible operations of `start_transfer`
and the wall-clock values it samples. -/
structure SysIO where
  /-- `ensure_dir(&session_dir)` (line 376): `none` on success. -/
  ensureSessionErr : Option String
  /-- `fs::write(readme_path, ..)` (line 394); its result is discarded by the
  source (`let _ =`), so only success-vs-failure matters for the world. -/
  readmeWriteErr : Option String
  /-- `fs::write(Transfers/_latest.txt, ..)` (line 398). -/
  latestWriteErr : Option String
  /-- `fs::write(<day>/_latest.txt, ..)` (line 403). -/
  dayLatestWriteErr : Option String
  /-- `fs::write(manifest.json, ..)` (line 640). -/
  manifestWriteErr : Option String
  /-- Value of the cancel flag at the final check (line 646), for runs whose
  loop was not stopped by cancellation (the flag is monotone within a run). -/
  finalCancel : Bool
  /-- `now_local_rfc3339()` at run start (line 343). -/
  startedAt : String
  /-- `now_local_rfc3339()` at run end (line 642). -/
  finishedAt : String
  /-- `start.elapsed().as_millis()` (line 643). -/
  durationMs : Nat

/-- The `precompute total_bytes` loop of `start_transfer` (transfer.rs lines
362-366): a metadata failure aborts the run; totals use `saturating_add`. -/
def totalBytesOf (fs : FS) : List MFileEntry → Nat → Except String Nat
  | [], acc => .ok acc
  | ent :: rest, acc =>
    match fs.meta ent.src with
    | .error e => .error ("metadata error: " ++ e)
    | .ok len => totalBytesOf fs rest (satAdd64 acc len)

/-- The static README contents (transfer.rs lines 381-393), kept abstract as
text; only its presence matters to the engine. -/
def readmeText : String := "TransferPilot output"

/-- `<mount>/Transfers/<day>/<run>` (transfer.rs lines 372-374). -/
def sessionDirOf (mount day run : String) : MPath := [mount, "Transfers", day, run]

/-- The initial run state: the world at run start, with the `scanning` event
already emitted (transfer.rs lines 346-357) and all counters zero. -/
def initState (fs0 : FS) : RunState :=
  { fs := fs0, events := ["scanning"], manifest := [],
    copied_files := 0, moved_files := 0, skipped_files := 0, error_files := 0,
    bytes_done := 0 }

/-- The conditional `Transfers/README.txt` write (transfer.rs lines 379-395):
written only if absent, and its result is discarded (`let _ =`). -/
def readmeFS (mount : String) (fs : FS) (sys : SysIO) : FS :=
  if ¬ fs.pathExists [mount, "Transfers", "README.txt"] then
    match sys.readmeWriteErr with
    | some _ => fs
    | none => fs.writeFile [mount, "Transfers", "README.txt"] (.text readmeText)
  else fs

/-- The `Transfers/_latest.txt` pointer write (transfer.rs lines 398-402). -/
def latestFS (mount day run : String) (fs : FS) : FS :=
  fs.writeFile [mount, "Transfers", "_latest.txt"] (.pathRef (sessionDirOf mount day run))

/-- The `Transfers/<day>/_latest.txt` pointer write (transfer.rs lines 403-407). -/
def dayLatestFS (mount day run : String) (fs : FS) : FS :=
  fs.writeFile [mount, "Transfers", day, "_latest.txt"]
    (.pathRef (sessionDirOf mount day run))

/-- The session-layout writes of `start_transfer` (transfer.rs lines 378-407):
the create-if-absent README (whose write result is discarded) and the two
unconditionally overwritten latest-pointer files (whose write failures are
fatal).  On failure, returns the state reached so far with the error. -/
def setupWrites (mount day run : String) (st : RunState) (sys : SysIO) :
    Except (RunState × String) RunState :=
  match sys.latestWriteErr with
  | some e =>
    .error ({ st with fs := readmeFS mount st.fs sys }, "latest write error: " ++ e)
  | none =>
    match sys.dayLatestWriteErr with
    | some e =>
      .error ({ st with fs := latestFS mount day run (readmeFS mount st.fs sys) },
        "day latest write error: " ++ e)
    | none =>
      .ok { st with
        fs := dayLatestFS mount day run (latestFS mount day run (readmeFS mount st.fs sys)) }

/-- The tail of `start_transfer` after the entry loop (transfer.rs lines
636-677): propagate a fatal loop error, otherwise write `manifest.json`, emit
the terminal event and build the summary. -/
def afterLoop (session_dir : MPath) (sys : SysIO) (total_bytes : Nat) :
    RunState × LoopExit → RunState × Except String MTransferSummary
  | (st, .fatal msg) => (st, .error msg)
  | (st, exit) =>
    match sys.manifestWriteErr with
    | some e => (st, .error ("manifest write error: " ++ e))
    | none =>
      let st2 : RunState := { st with
        fs := st.fs.writeFile (session_dir ++ ["manifest.json"]) (.manifestDoc st.manifest) }
      let st3 := pushEvent st2
        (if exit = .cancelled ∨ sys.finalCancel then "cancelled" else "done")
      (st3,
       .ok { started_at := sys.startedAt
             finished_at := sys.finishedAt
             duration_ms := sys.durationMs
             total_files := st3.copied_files + st3.moved_files +
               st3.skipped_files + st3.error_files
             total_bytes := total_bytes
             copied_files := st3.copied_files
             moved_files := st3.moved_files
             skipped_files := st3.skipped_files
             error_files := st3.error_files
             output_session_dir := session_dir })

/-- `start_transfer` (transfer.rs lines 334-677).  Returns the final world and
event trace as a `RunState` together with the source function's
`Result<TransferSummary, String>`.  `day` and `run` are the local wall-clock
stamps of lines 369-370; `io` is the per-entry I/O oracle. -/
def start_transfer (mt : String → MimeFamily) (day run : String) (mount : String)
    (items : List MPickedItem) (copy_mode conflict_policy verify_mode : String)
    (fs0 : FS) (io : Nat → EntryIO) (sys : SysIO) :
    RunState × Except String MTransferSummary :=
  match totalBytesOf fs0 (scan_entries fs0 items) 0 with
  | .error e => (initState fs0, .error e)
  | .ok total_bytes =>
    match sys.ensureSessionErr with
    | some e => (initState fs0, .error ("mkdir error: " ++ e))
    | none =>
      match setupWrites mount day run (initState fs0) sys with
      | .error (st, e) => (st, .error e)
      | .ok st =>
        afterLoop (sessionDirOf mount day run) sys total_bytes
          (runLoop
            { mt := mt, copy_mode := copy_mode, conflict_policy := conflict_policy,
              verify_mode := verify_mode, session_dir := sessionDirOf mount day run }
            io (pushEvent st "copying") 0 (scan_entries fs0 items))

/-! ## Helper notions for the claims -/

/-- Number of `cancelled` rows in a manifest. -/
def countCanc (m : List MManifestItem) : Nat :=
  m.countP (fun r => r.status = "cancelled")

/-- Sum of the four aggregate counters. -/
def sum4 (st : RunState) : Nat :=
  st.copied_files + st.moved_files + st.skipped_files + st.error_files

/-! ## C9: percent bounds -/

/-- C9: for all values of `bytes_done` and `bytes_total`, the reported percent
lies in `[0, 100]`, and a zero `bytes_total` yields exactly `0`. -/
theorem pct_in_range (bytes_done bytes_total : Nat) :
    0 ≤ pct bytes_done bytes_total ∧ pct bytes_done bytes_total ≤ 100 ∧
    pct bytes_done 0 = 0 := by
  refine ⟨?_, ?_, by simp [pct]⟩
  · unfold pct
    split
    · norm_num
    · exact le_min (by norm_num) (le_max_left 0 _)
  · unfold pct
    split
    · norm_num
    · exact min_le_left _ _

/-! ## C8: classification -/

/-- C8: `category_for` never fails, is a pure function of the path's
extension compared case-insensitively (two paths with the same normalized
extension classify identically), refines the spec's first-match order
(image/video/audio MIME family, then documents, archives, code, `Other`),
and reports the token `noext` when the extension is missing or empty. -/
theorem category_for_spec_refines (mt : String → MimeFamily) (p q : MPath) :
    (normExt p = normExt q → category_for mt p = category_for mt q) ∧
    category_for mt p = classify_spec mt (normExt p) ∧
    ((pathExt p = none ∨ pathExt p = some "") → (category_for mt p).2 = "noext") := by
  refine ⟨?_, rfl, ?_⟩
  · intro h
    show classify_spec mt (normExt p) = classify_spec mt (normExt q)
    rw [h]
  · rintro (h | h) <;> simp [category_for, normExt, h, lowerStr]

/-- A concrete stand-in for the `mime_guess` family lookup, for witnesses. -/
def mimeW : String → MimeFamily := fun e =>
  if e ∈ ["jpg", "jpeg", "png", "gif", "webp"] then .image
  else if e ∈ ["mp4", "mov", "mkv"] then .video
  else if e ∈ ["mp3", "wav", "flac"] then .audio
  else .other

/-- Witness for C8 at concrete inputs: `A.JPG` and `x.jpg` classify equally,
and an extensionless path reports `noext`. -/
theorem category_for_spec_refines_witness :
    normExt ["pics", "A.JPG"] = normExt ["b", "x.jpg"] ∧
    category_for mimeW ["pics", "A.JPG"] = category_for mimeW ["b", "x.jpg"] ∧
    pathExt ["docs", "README"] = none ∧
    (category_for mimeW ["docs", "README"]).2 = "noext" :=
  ⟨by decide, (category_for_spec_refines mimeW ["pics", "A.JPG"] ["b", "x.jpg"]).1 (by decide),
   by decide,
   (category_for_spec_refines mimeW ["docs", "README"] ["docs", "README"]).2.2
     (Or.inl (by decide))⟩

/-! ## C2: rename conflict policy -/

/-- A candidate the search loop returns is free. -/
lemma findFreeName_free (fs : FS) (parent : MPath) (stem ext : String) :
    ∀ fuel i c, findFreeName fs parent stem ext fuel i = some c →
      fs.pathExists c = false := by
  intro fuel
  induction fuel with
  | zero => intro i c h; simp [findFreeName] at h
  | succ n ih =>
    intro i c h
    unfold findFreeName at h
    by_cases hx : fs.pathExists (parent ++ [candName stem ext i]) = true
    · simp only [hx, if_pos] at h
      exact ih (i + 1) c h
    · simp only [Bool.not_eq_true] at hx
      simp only [hx, Bool.false_eq_true, if_neg, not_false_iff] at h
      injection h with h2
      rw [← h2]
      exact hx

/-- If some candidate inside the fuel window is free, the search succeeds. -/
lemma findFreeName_isSome (fs : FS) (parent : MPath) (stem ext : String) :
    ∀ fuel i, (∃ k, i ≤ k ∧ k < i + fuel ∧
        fs.pathExists (parent ++ [candName stem ext k]) = false) →
      (findFreeName fs parent stem ext fuel i).isSome := by
  intro fuel
  induction fuel with
  | zero =>
    rintro i ⟨k, hik, hk, _⟩
    omega
  | succ n ih =>
    rintro i ⟨k, hik, hk, hfree⟩
    unfold findFreeName
    by_cases hx : fs.pathExists (parent ++ [candName stem ext i]) = true
    · simp only [hx, if_pos]
      apply ih
      refine ⟨k, ?_, by omega, hfree⟩
      rcases Nat.eq_or_lt_of_le hik with rfl | hlt
      · rw [hfree] at hx; cases hx
      · omega
    · simp only [Bool.not_eq_true] at hx
      simp [hx]

/-- A nowhere-free filesystem view: every path exists. -/
def allExistsFS : FS :=
  { files := fun _ => some (.bytes []),
    isFile := fun _ => true,
    dirs := fun _ => false,
    walk := fun _ => [],
    meta := fun _ => .ok 0,
    pathExists := fun _ => true }

/-- Every path exists in the all-exists view. -/
lemma allExistsFS_pathExists (p : MPath) : allExistsFS.pathExists p = true := rfl

/-- When every candidate exists the search loop is exhausted. -/
lemma findFreeName_allExists (parent : MPath) (stem ext : String) :
    ∀ fuel i, findFreeName allExistsFS parent stem ext fuel i = none := by
  intro fuel
  induction fuel with
  | zero => intro i; simp [findFreeName]
  | succ n ih => intro i; unfold findFreeName; simp [allExistsFS_pathExists, ih]

/-- C2 counterexample: when the destination and all 9999 suffixed candidates
already exist, `unique_dest_path` falls back to the original path, so the path
passed to the copy step does exist at the time of the check — the rename
policy can overwrite an existing destination file. -/
theorem unique_dest_path_collision_cex :
    allExistsFS.pathExists ["mnt", "Transfers", "d", "t", "Files", "a.txt"] = true ∧
    unique_dest_path allExistsFS ["mnt", "Transfers", "d", "t", "Files", "a.txt"] =
      ["mnt", "Transfers", "d", "t", "Files", "a.txt"] := by
  refine ⟨rfl, ?_⟩
  unfold unique_dest_path
  rw [findFreeName_allExists]
  simp [allExistsFS]

/-- C2 (amended): under the rename policy, whenever the computed destination
exists but some candidate `" (N)"` path with `N` in `1..=9999` does not exist,
the path `unique_dest_path` hands to the copy step did not exist at the time
of the check.  (Only when all 9999 candidates exist does the source fall back
to the original, colliding path.) -/
theorem unique_dest_path_fresh (fs : FS) (dest : MPath) (i : Nat)
    (hex : fs.pathExists dest = true) (h1 : 1 ≤ i) (h2 : i ≤ 9999)
    (hfree : fs.pathExists (renameCandidate dest i) = false) :
    fs.pathExists (unique_dest_path fs dest) = false := by
  unfold unique_dest_path
  rw [hex]
  have hsome : (findFreeName fs (destParent dest) (destStem dest) (destExtn dest) 9999 1).isSome := by
    apply findFreeName_isSome
    exact ⟨i, h1, by omega, hfree⟩
  simp only [Bool.not_true, Bool.false_eq_true, if_neg, not_false_iff]
  rcases Option.isSome_iff_exists.mp hsome with ⟨c, hc⟩
  rw [hc]
  exact findFreeName_free fs _ _ _ 9999 1 c hc

/-- A filesystem view where exactly one destination file exists. -/
def oneFileFS : FS :=
  { files := fun p => if p = ["d", "a.txt"] then some (.bytes [1]) else none,
    isFile := fun p => p == ["d", "a.txt"],
    dirs := fun _ => false,
    walk := fun _ => [],
    meta := fun _ => .ok 1,
    pathExists := fun p => p == ["d", "a.txt"] }

/-- Witness for the amended C2: with only `d/a.txt` present, the chosen path
for a collision at `d/a.txt` does not exist at check time. -/
theorem unique_dest_path_fresh_witness :
    oneFileFS.pathExists (unique_dest_path oneFileFS ["d", "a.txt"]) = false :=
  unique_dest_path_fresh oneFileFS ["d", "a.txt"] 1 (by decide) (by decide) (by decide)
    (by decide)

/-! ## C5: scanning and destination layout -/

/-- C5: every scanned entry either came from a direct file pick — then it has
no folder-relative path and its destination is `<session_dir>/Files/<filename>`
— or from a folder pick, in which case its folder-relative path is exactly the
picked folder's base name followed by the walked file's path relative to that
folder, and its destination is `<session_dir>/Folders/<that relative path>`. -/
theorem scan_dest_layout (fs : FS) (items : List MPickedItem) (sdir : MPath)
    (ent : MFileEntry) (hmem : ent ∈ scan_entries fs items) :
    (ent.folder_rel = none ∧
       destPath sdir ent = sdir ++ ["Files", (lastComp ent.src).getD "file"] ∧
       ∃ it, it ∈ items ∧ it.kind = "file" ∧ fs.isFile it.path = true ∧
         ent.src = it.path)
    ∨ (∃ it w, it ∈ items ∧ it.kind ≠ "file" ∧ fs.dirs it.path = true ∧
         w ∈ fs.walk it.path ∧ w.2 = true ∧ ent.src = w.1 ∧
         ent.folder_rel = some (((lastComp it.path).getD "Folder") :: relTo it.path w.1) ∧
         destPath sdir ent =
           sdir ++ "Folders" :: ((lastComp it.path).getD "Folder") :: relTo it.path w.1 ∧
         (initSeg it.path w.1 = true → relTo it.path w.1 = w.1.drop it.path.length)) := by
  unfold scan_entries at hmem
  rw [List.mem_flatMap] at hmem
  obtain ⟨it, hit, hent⟩ := hmem
  unfold scanItem at hent
  by_cases hk : it.kind = "file"
  · rw [if_pos hk] at hent
    by_cases hf : fs.isFile it.path = true
    · rw [if_pos hf, List.mem_singleton] at hent
      subst hent
      exact Or.inl ⟨rfl, by simp [destPath], it, hit, hk, hf, rfl⟩
    · rw [if_neg hf] at hent
      cases hent
  · rw [if_neg hk] at hent
    by_cases hd : fs.dirs it.path = true
    · rw [if_pos hd, List.mem_filterMap] at hent
      obtain ⟨w, hw, hwe⟩ := hent
      by_cases hw2 : w.2 = true
      · rw [if_pos hw2] at hwe
        injection hwe with hwe
        subst hwe
        refine Or.inr ⟨it, w, hit, hk, hd, hw, hw2, rfl, rfl, by simp [destPath], ?_⟩
        intro hpre
        simp [relTo, hpre]
      · rw [if_neg hw2] at hwe
        cases hwe
    · rw [if_neg hd] at hent
      cases hent

/-- A small world with one loose file and one folder containing one file. -/
def scanFS : FS :=
  { files := fun _ => none,
    isFile := fun p => p == ["home", "x.txt"],
    dirs := fun p => p == ["home", "Pics"],
    walk := fun p =>
      if p = ["home", "Pics"] then [(["home", "Pics", "summer", "a.jpg"], true)] else [],
    meta := fun _ => .ok 0,
    pathExists := fun _ => false }

/-- The two picks of the witness world. -/
def scanItems : List MPickedItem :=
  [{ kind := "file", path := ["home", "x.txt"] },
   { kind := "folder", path := ["home", "Pics"] }]

/-- The folder-pick entry the witness world produces. -/
def entW : MFileEntry :=
  { src := ["home", "Pics", "summer", "a.jpg"],
    folder_rel := some ["Pics", "summer", "a.jpg"] }

/-- Witness for C5: the folder-pick entry of the witness world is scanned with
relative path `Pics/summer/a.jpg` and lands under `Folders/`. -/
theorem scan_dest_layout_witness :
    entW ∈ scan_entries scanFS scanItems ∧
    destPath ["sess"] entW = ["sess", "Folders", "Pics", "summer", "a.jpg"] ∧
    ((entW.folder_rel = none ∧
       destPath ["sess"] entW =
         ["sess"] ++ ["Files", (lastComp entW.src).getD "file"] ∧
       ∃ it, it ∈ scanItems ∧ it.kind = "file" ∧ scanFS.isFile it.path = true ∧
         entW.src = it.path)
    ∨ (∃ it w, it ∈ scanItems ∧ it.kind ≠ "file" ∧ scanFS.dirs it.path = true ∧
         w ∈ scanFS.walk it.path ∧ w.2 = true ∧ entW.src = w.1 ∧
         entW.folder_rel = some (((lastComp it.path).getD "Folder") :: relTo it.path w.1) ∧
         destPath ["sess"] entW =
           ["sess"] ++ "Folders" :: ((lastComp it.path).getD "Folder") :: relTo it.path w.1 ∧
         (initSeg it.path w.1 = true → relTo it.path w.1 = w.1.drop it.path.length))) :=
  ⟨by decide, by decide,
   scan_dest_layout scanFS scanItems ["sess"] entW (by decide)⟩

/-! ## C6: preflight -/

/-- The preflight aggregation loop fails exactly when some scanned entry's
metadata read fails. -/
lemma preflightFold_error_iff (mt : String → MimeFamily) (fs : FS) :
    ∀ (l : List MFileEntry) total bc be,
      (∃ e, preflightFold mt fs l total bc be = .error e) ↔
      ∃ ent, ent ∈ l ∧ ∃ e, fs.meta ent.src = .error e := by
  intro l
  induction l with
  | nil =>
    intro total bc be
    simp [preflightFold]
  | cons ent rest ih =>
    intro total bc be
    constructor
    · rintro ⟨e, he⟩
      unfold preflightFold at he
      cases hm : fs.meta ent.src with
      | error e2 => exact ⟨ent, List.mem_cons_self .., e2, hm⟩
      | ok len =>
        rw [hm] at he
        simp only at he
        rcases (ih _ _ _).mp ⟨e, he⟩ with ⟨ent2, hent2, hbad⟩
        exact ⟨ent2, List.mem_cons_of_mem _ hent2, hbad⟩
    · rintro ⟨ent2, hent2, e, hbad⟩
      unfold preflightFold
      cases hm : fs.meta ent.src with
      | error e2 => exact ⟨"metadata error: " ++ e2, rfl⟩
      | ok len =>
        simp only
        apply (ih _ _ _).mpr
        rcases List.mem_cons.mp hent2 with rfl | h2
        · rw [hm] at hbad; cases hbad
        · exact ⟨ent2, h2, e, hbad⟩

/-- On success, the accumulated byte total is the saturating fold of the
entry sizes. -/
lemma preflightFold_ok_total (mt : String → MimeFamily) (fs : FS) :
    ∀ (l : List MFileEntry) total bc be t2 bc2 be2,
      preflightFold mt fs l total bc be = .ok (t2, bc2, be2) →
      t2 = l.foldl (fun acc ent => satAdd64 acc ((fs.meta ent.src).toOption.getD 0)) total := by
  intro l
  induction l with
  | nil =>
    intro total bc be t2 bc2 be2 h
    simp [preflightFold] at h
    simp [h.1]
  | cons ent rest ih =>
    intro total bc be t2 bc2 be2 h
    unfold preflightFold at h
    cases hm : fs.meta ent.src with
    | error e => rw [hm] at h; cases h
    | ok len =>
      rw [hm] at h
      simp only at h
      have := ih _ _ _ _ _ _ h
      simp only [List.foldl_cons, hm, Except.toOption, Option.getD_some]
      exact this

/-- C6: preflight reads the size of every scanned entry, and fails exactly
when one of those metadata reads fails; on success the byte total is the
saturating-add fold of the sizes, the available-space figure falls back to
zero when the space query failed, and the fit verdict is exactly
`available ≥ total`. -/
theorem preflight_scan_props (mt : String → MimeFamily) (fs : FS)
    (avail : Except String Nat) (items : List MPickedItem) :
    ((∃ e, preflight_scan mt fs avail items = .error e) ↔
       ∃ ent, ent ∈ scan_entries fs items ∧ ∃ e, fs.meta ent.src = .error e) ∧
    (∀ r, preflight_scan mt fs avail items = .ok r →
       r.dest_avail_bytes = avail.toOption.getD 0 ∧
       (∀ e, avail = .error e → r.dest_avail_bytes = 0) ∧
       (r.will_fit = true ↔ r.dest_avail_bytes ≥ r.total_bytes) ∧
       r.total_bytes = (scan_entries fs items).foldl
         (fun acc ent => satAdd64 acc ((fs.meta ent.src).toOption.getD 0)) 0) := by
  constructor
  · rw [← preflightFold_error_iff mt fs (scan_entries fs items) 0 (fun _ => 0) (fun _ => 0)]
    unfold preflight_scan
    cases preflightFold mt fs (scan_entries fs items) 0 (fun _ => 0) (fun _ => 0) with
    | error e => simp
    | ok t => obtain ⟨t2, bc2, be2⟩ := t; simp
  · intro r
    unfold preflight_scan
    cases hf : preflightFold mt fs (scan_entries fs items) 0 (fun _ => 0) (fun _ => 0) with
    | error e =>
      intro hr
      cases hr
    | ok t =>
      obtain ⟨t2, bc2, be2⟩ := t
      intro hr
      injection hr with hr
      subst hr
      refine ⟨rfl, ?_, ?_, ?_⟩
      · intro e he; subst he; rfl
      · simp
      · exact preflightFold_ok_total mt fs _ _ _ _ _ _ _ hf

/-- A world identical to the scan witness world but whose metadata reads fail. -/
def metaFailFS : FS := { scanFS with meta := fun _ => .error "io" }

/-- Witness for C6: with the space query failing, preflight on the witness
world succeeds with zero available bytes, zero total and a positive verdict;
with failing metadata reads, preflight fails. -/
theorem preflight_scan_props_witness :
    (preflight_scan mimeW scanFS (.error "df failed") scanItems).map
      (fun r => (r.dest_avail_bytes, r.total_bytes, r.will_fit)) = .ok (0, 0, true) ∧
    (preflight_scan mimeW metaFailFS (.ok 100) scanItems).isOk = false := by
  constructor
  · have h := preflight_scan_props mimeW scanFS (.error "df failed") scanItems
    cases hok : preflight_scan mimeW scanFS (.error "df failed") scanItems with
    | error e =>
      exfalso
      rcases h.1.mp ⟨e, hok⟩ with ⟨ent, _, e2, he⟩
      simp [scanFS] at he
    | ok r =>
      have hp := h.2 r hok
      have hda : r.dest_avail_bytes = 0 := hp.2.1 "df failed" rfl
      have htb : r.total_bytes = 0 := by rw [hp.2.2.2]; decide
      have hwf : r.will_fit = true := by
        apply hp.2.2.1.mpr
        rw [hda, htb]
      simp [Except.map, hda, htb, hwf]
  · have h := preflight_scan_props mimeW metaFailFS (.ok 100) scanItems
    rcases h.1.mpr ⟨entW, by decide, "io", rfl⟩ with ⟨e, he⟩
    rw [he]
    rfl

/-! ## Step lemmas about the executor -/

/-- `moveRecord` with a pre-existing error records an `error` row. -/
lemma moveRecord_some (ctx : Ctx) (st : RunState) (ent : MFileEntry) (io : EntryIO)
    (bytes : Nat) (cat ext : String) (dst : MPath) (e : String) :
    moveRecord ctx st ent io bytes cat ext dst (some e) =
      .cont { st with
        error_files := st.error_files + 1,
        manifest := st.manifest ++ [mkRow ent.src dst cat ext bytes "error" (some e)],
        events := st.events ++ ["copying"] } := by
  unfold moveRecord
  simp [pushEvent]

/-- `moveRecord` in move mode with a failing deletion records an `error` row
and leaves the filesystem untouched. -/
lemma moveRecord_move_fail (ctx : Ctx) (st : RunState) (ent : MFileEntry) (io : EntryIO)
    (bytes : Nat) (cat ext : String) (dst : MPath) (e : String)
    (hm : ctx.copy_mode = "move") (hr : io.removeErr = some e) :
    moveRecord ctx st ent io bytes cat ext dst none =
      .cont { st with
        error_files := st.error_files + 1,
        manifest := st.manifest ++
          [mkRow ent.src dst cat ext bytes "error" (some ("move cleanup failed: " ++ e))],
        events := st.events ++ ["copying"] } := by
  unfold moveRecord
  simp [pushEvent, hm, hr]

/-- `moveRecord` in move mode with a successful deletion removes the source
and records a `moved` row. -/
lemma moveRecord_move_ok (ctx : Ctx) (st : RunState) (ent : MFileEntry) (io : EntryIO)
    (bytes : Nat) (cat ext : String) (dst : MPath)
    (hm : ctx.copy_mode = "move") (hr : io.removeErr = none) :
    moveRecord ctx st ent io bytes cat ext dst none =
      .cont { st with
        fs := st.fs.removeFile ent.src,
        moved_files := st.moved_files + 1,
        manifest := st.manifest ++ [mkRow ent.src dst cat ext bytes "moved" none],
        events := st.events ++ ["copying"] } := by
  unfold moveRecord
  simp [pushEvent, hm, hr]

/-- `moveRecord` outside move mode records a `copied` row. -/
lemma moveRecord_copy (ctx : Ctx) (st : RunState) (ent : MFileEntry) (io : EntryIO)
    (bytes : Nat) (cat ext : String) (dst : MPath)
    (hm : ctx.copy_mode ≠ "move") :
    moveRecord ctx st ent io bytes cat ext dst none =
      .cont { st with
        copied_files := st.copied_files + 1,
        manifest := st.manifest ++ [mkRow ent.src dst cat ext bytes "copied" none],
        events := st.events ++ ["copying"] } := by
  unfold moveRecord
  simp [pushEvent, hm]

/-- The four aggregate counters agree between two states. -/
def countersEq (st st2 : RunState) : Prop :=
  st2.copied_files = st.copied_files ∧ st2.moved_files = st.moved_files ∧
  st2.skipped_files = st.skipped_files ∧ st2.error_files = st.error_files

/-- One row was appended and exactly the counter matching its status was
incremented. -/
def rowCounterDelta (st st2 : RunState) (row : MManifestItem) : Prop :=
  st2.manifest = st.manifest ++ [row] ∧
  ((row.status = "skipped" ∧ st2.skipped_files = st.skipped_files + 1 ∧
      st2.copied_files = st.copied_files ∧ st2.moved_files = st.moved_files ∧
      st2.error_files = st.error_files) ∨
   (row.status = "error" ∧ st2.error_files = st.error_files + 1 ∧
      st2.copied_files = st.copied_files ∧ st2.moved_files = st.moved_files ∧
      st2.skipped_files = st.skipped_files) ∨
   (row.status = "moved" ∧ st2.moved_files = st.moved_files + 1 ∧
      st2.copied_files = st.copied_files ∧ st2.skipped_files = st.skipped_files ∧
      st2.error_files = st.error_files) ∨
   (row.status = "copied" ∧ st2.copied_files = st.copied_files + 1 ∧
      st2.moved_files = st.moved_files ∧ st2.skipped_files = st.skipped_files ∧
      st2.error_files = st.error_files))

/-- Appending a row adds its cancelled-ness to the cancelled count. -/
lemma countCanc_append_row (m : List MManifestItem) (row : MManifestItem) :
    countCanc (m ++ [row]) =
      countCanc m + (if row.status = "cancelled" then 1 else 0) := by
  simp [countCanc, List.countP_append, List.countP_cons]

/-- Trichotomy of `moveRecord` outcomes when no prior error is pending. -/
lemma moveRecord_none_cases (ctx : Ctx) (st : RunState) (ent : MFileEntry) (io : EntryIO)
    (bytes : Nat) (cat ext : String) (dst : MPath) :
    ∃ st2 row, moveRecord ctx st ent io bytes cat ext dst none = .cont st2 ∧
      rowCounterDelta st st2 row ∧ row.source = ent.src ∧ row.dest = dst ∧
      row.status ≠ "cancelled" ∧
      (row.status = "moved" → st2.fs.files ent.src = none) ∧
      (row.status ≠ "moved" → st2.fs = st.fs) := by
  by_cases hm : ctx.copy_mode = "move"
  · cases hr : io.removeErr with
    | some e =>
      rw [moveRecord_move_fail ctx st ent io bytes cat ext dst e hm hr]
      exact ⟨_, _, rfl, ⟨rfl, Or.inr (Or.inl ⟨rfl, rfl, rfl, rfl, rfl⟩)⟩, rfl, rfl,
        by simp [mkRow], fun h => absurd h (by simp [mkRow]), fun _ => rfl⟩
    | none =>
      rw [moveRecord_move_ok ctx st ent io bytes cat ext dst hm hr]
      refine ⟨_, _, rfl, ⟨rfl, Or.inr (Or.inr (Or.inl ⟨rfl, rfl, rfl, rfl, rfl⟩))⟩, rfl, rfl,
        by simp [mkRow], ?_, fun h => (h rfl).elim⟩
      intro _
      simp [FS.removeFile]
  · rw [moveRecord_copy ctx st ent io bytes cat ext dst hm]
    exact ⟨_, _, rfl, ⟨rfl, Or.inr (Or.inr (Or.inr ⟨rfl, rfl, rfl, rfl, rfl⟩))⟩, rfl, rfl,
      by simp [mkRow], fun h => absurd h (by simp [mkRow]), fun _ => rfl⟩

/-- Equation: copy cancelled mid-stream. -/
lemma cvr_cancelled (ctx : Ctx) (st : RunState) (ent : MFileEntry) (io : EntryIO)
    (bytes : Nat) (cat ext : String) (dst : MPath) (w : List Nat)
    (hc : io.copy = .cancelled w) :
    copyVerifyRecord ctx st ent io bytes cat ext dst =
      .stopCancelled (pushEvent
        { withWrite (postCopyBase st io) dst w with
          manifest := st.manifest ++ [mkRow ent.src dst cat ext bytes "cancelled" none] }
        "cancelled") := by
  unfold copyVerifyRecord
  rw [hc]

/-- Equation: copy I/O error with a partial destination write. -/
lemma cvr_ioErr_some (ctx : Ctx) (st : RunState) (ent : MFileEntry) (io : EntryIO)
    (bytes : Nat) (cat ext : String) (dst : MPath) (msg : String) (wb : List Nat)
    (hc : io.copy = .ioErr msg (some wb)) :
    copyVerifyRecord ctx st ent io bytes cat ext dst =
      moveRecord ctx (withWrite (postCopyBase st io) dst wb) ent io bytes cat ext dst
        (some msg) := by
  unfold copyVerifyRecord
  rw [hc]

/-- Equation: copy I/O error with no destination write. -/
lemma cvr_ioErr_none (ctx : Ctx) (st : RunState) (ent : MFileEntry) (io : EntryIO)
    (bytes : Nat) (cat ext : String) (dst : MPath) (msg : String)
    (hc : io.copy = .ioErr msg none) :
    copyVerifyRecord ctx st ent io bytes cat ext dst =
      moveRecord ctx (postCopyBase st io) ent io bytes cat ext dst (some msg) := by
  unfold copyVerifyRecord
  rw [hc]

/-- Equation: size verification hits a metadata I/O error — fatal. -/
lemma cvr_size_fatal (ctx : Ctx) (st : RunState) (ent : MFileEntry) (io : EntryIO)
    (bytes : Nat) (cat ext : String) (dst : MPath) (w : List Nat) (e : String)
    (hc : io.copy = .ok w) (hv : ctx.verify_mode = "size")
    (hd : io.dstMetaLen = .error e) :
    copyVerifyRecord ctx st ent io bytes cat ext dst =
      .fatal (withWrite (postCopyBase st io) dst w) ("dst metadata error: " ++ e) := by
  unfold copyVerifyRecord
  rw [hc]
  simp [hv, hd]

/-- Equation: size verification with a successful metadata read. -/
lemma cvr_size_ok (ctx : Ctx) (st : RunState) (ent : MFileEntry) (io : EntryIO)
    (bytes : Nat) (cat ext : String) (dst : MPath) (w : List Nat) (dlen : Nat)
    (hc : io.copy = .ok w) (hv : ctx.verify_mode = "size")
    (hd : io.dstMetaLen = .ok dlen) :
    copyVerifyRecord ctx st ent io bytes cat ext dst =
      moveRecord ctx (withWrite (postCopyBase st io) dst w) ent io bytes cat ext dst
        (if dlen ≠ bytes then some "verify failed: size mismatch" else none) := by
  unfold copyVerifyRecord
  rw [hc]
  simp [hv, hd]

/-- Equation: sha256 verification fails to hash the source — fatal. -/
lemma cvr_sha_src_fatal (ctx : Ctx) (st : RunState) (ent : MFileEntry) (io : EntryIO)
    (bytes : Nat) (cat ext : String) (dst : MPath) (w : List Nat) (e : String)
    (hc : io.copy = .ok w) (hv : ctx.verify_mode = "sha256")
    (ha : io.shaSrc = .error e) :
    copyVerifyRecord ctx st ent io bytes cat ext dst =
      .fatal (pushEvent (withWrite (postCopyBase st io) dst w) "verifying") e := by
  unfold copyVerifyRecord
  rw [hc]
  simp [hv, ha]

/-- Equation: sha256 verification fails to hash the destination — fatal. -/
lemma cvr_sha_dst_fatal (ctx : Ctx) (st : RunState) (ent : MFileEntry) (io : EntryIO)
    (bytes : Nat) (cat ext : String) (dst : MPath) (w : List Nat) (a e : String)
    (hc : io.copy = .ok w) (hv : ctx.verify_mode = "sha256")
    (ha : io.shaSrc = .ok a) (hb : io.shaDst = .error e) :
    copyVerifyRecord ctx st ent io bytes cat ext dst =
      .fatal (pushEvent (withWrite (postCopyBase st io) dst w) "verifying") e := by
  unfold copyVerifyRecord
  rw [hc]
  simp [hv, ha, hb]

/-- Equation: sha256 verification with both hashes computed. -/
lemma cvr_sha_ok (ctx : Ctx) (st : RunState) (ent : MFileEntry) (io : EntryIO)
    (bytes : Nat) (cat ext : String) (dst : MPath) (w : List Nat) (a b : String)
    (hc : io.copy = .ok w) (hv : ctx.verify_mode = "sha256")
    (ha : io.shaSrc = .ok a) (hb : io.shaDst = .ok b) :
    copyVerifyRecord ctx st ent io bytes cat ext dst =
      moveRecord ctx (pushEvent (withWrite (postCopyBase st io) dst w) "verifying")
        ent io bytes cat ext dst
        (if a ≠ b then some "verify failed: sha256 mismatch" else none) := by
  unfold copyVerifyRecord
  rw [hc]
  simp [hv, ha, hb]

/-- Equation: no verification. -/
lemma cvr_noverify (ctx : Ctx) (st : RunState) (ent : MFileEntry) (io : EntryIO)
    (bytes : Nat) (cat ext : String) (dst : MPath) (w : List Nat)
    (hc : io.copy = .ok w) (hv1 : ctx.verify_mode ≠ "size")
    (hv2 : ctx.verify_mode ≠ "sha256") :
    copyVerifyRecord ctx st ent io bytes cat ext dst =
      moveRecord ctx (withWrite (postCopyBase st io) dst w) ent io bytes cat ext dst none := by
  unfold copyVerifyRecord
  rw [hc]
  simp [hv1, hv2]

/-- `moveRecord` always continues, appending one row whose status drives
exactly one counter. -/
lemma moveRecord_cases_any (ctx : Ctx) (st : RunState) (ent : MFileEntry) (io : EntryIO)
    (bytes : Nat) (cat ext : String) (dst : MPath) (err : Option String) :
    ∃ st2 row, moveRecord ctx st ent io bytes cat ext dst err = .cont st2 ∧
      rowCounterDelta st st2 row ∧ row.source = ent.src ∧ row.status ≠ "cancelled" ∧
      (row.status = "moved" → st2.fs.files ent.src = none) := by
  cases err with
  | some e =>
    rw [moveRecord_some]
    exact ⟨_, _, rfl, ⟨rfl, Or.inr (Or.inl ⟨rfl, rfl, rfl, rfl, rfl⟩)⟩, rfl,
      by simp [mkRow], fun h => absurd h (by simp [mkRow])⟩
  | none =>
    obtain ⟨st2, row, heq, hdelta, hsrc, _, hnc, hmv, _⟩ :=
      moveRecord_none_cases ctx st ent io bytes cat ext dst
    exact ⟨st2, row, heq, hdelta, hsrc, hnc, hmv⟩

/-- Trichotomy of `copyVerifyRecord` outcomes: continue with one counted row,
break with a `cancelled` row, or fail fatally with no row. -/
lemma copyVerifyRecord_cases (ctx : Ctx) (st : RunState) (ent : MFileEntry) (io : EntryIO)
    (bytes : Nat) (cat ext : String) (dst : MPath) :
    (∃ st2 row, copyVerifyRecord ctx st ent io bytes cat ext dst = .cont st2 ∧
       rowCounterDelta st st2 row ∧ row.source = ent.src ∧ row.status ≠ "cancelled" ∧
       (row.status = "moved" → st2.fs.files ent.src = none)) ∨
    (∃ st2 row, copyVerifyRecord ctx st ent io bytes cat ext dst = .stopCancelled st2 ∧
       st2.manifest = st.manifest ++ [row] ∧ row.status = "cancelled" ∧ countersEq st st2) ∨
    (∃ st2 m, copyVerifyRecord ctx st ent io bytes cat ext dst = .fatal st2 m ∧
       st2.manifest = st.manifest ∧ countersEq st st2) := by
  cases hc : io.copy with
  | cancelled w =>
    rw [cvr_cancelled ctx st ent io bytes cat ext dst w hc]
    exact Or.inr (Or.inl ⟨_, _, rfl, rfl, rfl, rfl, rfl, rfl, rfl⟩)
  | ioErr msg w =>
    cases w with
    | some wb =>
      rw [cvr_ioErr_some ctx st ent io bytes cat ext dst msg wb hc]
      obtain ⟨st2, row, heq, hdelta, hsrc, hnc, hmv⟩ :=
        moveRecord_cases_any ctx (withWrite (postCopyBase st io) dst wb) ent io bytes cat ext
          dst (some msg)
      rw [heq]
      exact Or.inl ⟨st2, row, rfl, hdelta, hsrc, hnc, hmv⟩
    | none =>
      rw [cvr_ioErr_none ctx st ent io bytes cat ext dst msg hc]
      obtain ⟨st2, row, heq, hdelta, hsrc, hnc, hmv⟩ :=
        moveRecord_cases_any ctx (postCopyBase st io) ent io bytes cat ext dst (some msg)
      rw [heq]
      exact Or.inl ⟨st2, row, rfl, hdelta, hsrc, hnc, hmv⟩
  | ok w =>
    by_cases hv : ctx.verify_mode = "size"
    · cases hd : io.dstMetaLen with
      | error e =>
        rw [cvr_size_fatal ctx st ent io bytes cat ext dst w e hc hv hd]
        exact Or.inr (Or.inr ⟨_, _, rfl, rfl, rfl, rfl, rfl, rfl⟩)
      | ok dlen =>
        rw [cvr_size_ok ctx st ent io bytes cat ext dst w dlen hc hv hd]
        obtain ⟨st2, row, heq, hdelta, hsrc, hnc, hmv⟩ :=
          moveRecord_cases_any ctx (withWrite (postCopyBase st io) dst w) ent io bytes cat ext
            dst (if dlen ≠ bytes then some "verify failed: size mismatch" else none)
        rw [heq]
        exact Or.inl ⟨st2, row, rfl, hdelta, hsrc, hnc, hmv⟩
    · by_cases hs : ctx.verify_mode = "sha256"
      · cases ha : io.shaSrc with
        | error e =>
          rw [cvr_sha_src_fatal ctx st ent io bytes cat ext dst w e hc hs ha]
          exact Or.inr (Or.inr ⟨_, _, rfl, rfl, rfl, rfl, rfl, rfl⟩)
        | ok a =>
          cases hb : io.shaDst with
          | error e =>
            rw [cvr_sha_dst_fatal ctx st ent io bytes cat ext dst w a e hc hs ha hb]
            exact Or.inr (Or.inr ⟨_, _, rfl, rfl, rfl, rfl, rfl, rfl⟩)
          | ok b =>
            rw [cvr_sha_ok ctx st ent io bytes cat ext dst w a b hc hs ha hb]
            obtain ⟨st2, row, heq, hdelta, hsrc, hnc, hmv⟩ :=
              moveRecord_cases_any ctx
                (pushEvent (withWrite (postCopyBase st io) dst w) "verifying") ent io bytes
                cat ext dst (if a ≠ b then some "verify failed: sha256 mismatch" else none)
            rw [heq]
            exact Or.inl ⟨st2, row, rfl, hdelta, hsrc, hnc, hmv⟩
      · rw [cvr_noverify ctx st ent io bytes cat ext dst w hc hv hs]
        obtain ⟨st2, row, heq, hdelta, hsrc, hnc, hmv⟩ :=
          moveRecord_cases_any ctx (withWrite (postCopyBase st io) dst w) ent io bytes cat ext
            dst none
        rw [heq]
        exact Or.inl ⟨st2, row, rfl, hdelta, hsrc, hnc, hmv⟩

/-- Equation: the cancel flag is set before the entry starts. -/
lemma pe_preCancel (ctx : Ctx) (st : RunState) (ent : MFileEntry) (io : EntryIO)
    (hp : io.preCancel = true) :
    processEntry ctx st ent io = .stopCancelled (pushEvent st "cancelled") := by
  unfold processEntry
  rw [if_pos hp]

/-- Equation: the per-entry source metadata read fails — fatal. -/
lemma pe_meta_fatal (ctx : Ctx) (st : RunState) (ent : MFileEntry) (io : EntryIO)
    (e : String) (hp : io.preCancel = false) (hm : io.srcMeta = .error e) :
    processEntry ctx st ent io = .fatal st ("metadata error: " ++ e) := by
  unfold processEntry
  rw [hp]
  simp [hm]

/-- Equation: destination free — straight to the copy stage. -/
lemma pe_noconflict (ctx : Ctx) (st : RunState) (ent : MFileEntry) (io : EntryIO)
    (n : Nat) (hp : io.preCancel = false) (hm : io.srcMeta = .ok n)
    (hex : st.fs.pathExists (destPath ctx.session_dir ent) = false) :
    processEntry ctx st ent io =
      copyVerifyRecord ctx st ent io n (category_for ctx.mt ent.src).1
        (category_for ctx.mt ent.src).2 (destPath ctx.session_dir ent) := by
  unfold processEntry
  rw [hp]
  simp [hm, hex]

/-- Equation: destination exists under the `skip` policy — record and move on. -/
lemma pe_skip (ctx : Ctx) (st : RunState) (ent : MFileEntry) (io : EntryIO)
    (n : Nat) (hp : io.preCancel = false) (hm : io.srcMeta = .ok n)
    (hex : st.fs.pathExists (destPath ctx.session_dir ent) = true)
    (hcp : ctx.conflict_policy = "skip") :
    processEntry ctx st ent io =
      .cont { st with
        skipped_files := st.skipped_files + 1,
        manifest := st.manifest ++
          [mkRow ent.src (destPath ctx.session_dir ent) (category_for ctx.mt ent.src).1
            (category_for ctx.mt ent.src).2 n "skipped" none] } := by
  unfold processEntry
  rw [hp]
  simp [hm, hex, hcp]

/-- Equation: destination exists under the `overwrite` policy. -/
lemma pe_overwrite (ctx : Ctx) (st : RunState) (ent : MFileEntry) (io : EntryIO)
    (n : Nat) (hp : io.preCancel = false) (hm : io.srcMeta = .ok n)
    (hex : st.fs.pathExists (destPath ctx.session_dir ent) = true)
    (hcp : ctx.conflict_policy = "overwrite") :
    processEntry ctx st ent io =
      copyVerifyRecord ctx st ent io n (category_for ctx.mt ent.src).1
        (category_for ctx.mt ent.src).2 (destPath ctx.session_dir ent) := by
  unfold processEntry
  rw [hp]
  simp [hm, hex, hcp]

/-- Equation: destination exists under any other policy — rename. -/
lemma pe_rename (ctx : Ctx) (st : RunState) (ent : MFileEntry) (io : EntryIO)
    (n : Nat) (hp : io.preCancel = false) (hm : io.srcMeta = .ok n)
    (hex : st.fs.pathExists (destPath ctx.session_dir ent) = true)
    (h1 : ctx.conflict_policy ≠ "overwrite") (h2 : ctx.conflict_policy ≠ "skip") :
    processEntry ctx st ent io =
      copyVerifyRecord ctx st ent io n (category_for ctx.mt ent.src).1
        (category_for ctx.mt ent.src).2
        (unique_dest_path st.fs (destPath ctx.session_dir ent)) := by
  unfold processEntry
  rw [hp]
  simp [hm, hex, h1, h2]

/-- The four possible shapes of one executor-loop iteration: break with no
row (cancellation seen before the entry starts), break with a `cancelled` row
(cancellation mid-copy), fatal abort with no row, or continue having appended
exactly one row and incremented exactly the matching counter. -/
lemma processEntry_cases (ctx : Ctx) (st : RunState) (ent : MFileEntry) (io : EntryIO) :
    (∃ st2, processEntry ctx st ent io = .stopCancelled st2 ∧
       st2.manifest = st.manifest ∧ countersEq st st2) ∨
    (∃ st2 row, processEntry ctx st ent io = .stopCancelled st2 ∧
       st2.manifest = st.manifest ++ [row] ∧ row.status = "cancelled" ∧ countersEq st st2) ∨
    (∃ st2 m, processEntry ctx st ent io = .fatal st2 m ∧
       st2.manifest = st.manifest ∧ countersEq st st2) ∨
    (∃ st2 row, processEntry ctx st ent io = .cont st2 ∧
       rowCounterDelta st st2 row ∧ row.source = ent.src ∧ row.status ≠ "cancelled" ∧
       (row.status = "moved" → st2.fs.files ent.src = none)) := by
  by_cases hp : io.preCancel = true
  · rw [pe_preCancel ctx st ent io hp]
    exact Or.inl ⟨_, rfl, rfl, rfl, rfl, rfl, rfl⟩
  · rw [Bool.not_eq_true] at hp
    cases hm : io.srcMeta with
    | error e =>
      rw [pe_meta_fatal ctx st ent io e hp hm]
      exact Or.inr (Or.inr (Or.inl ⟨_, _, rfl, rfl, rfl, rfl, rfl, rfl⟩))
    | ok n =>
      have hcvr : ∀ dst,
          (∃ st2 row, copyVerifyRecord ctx st ent io n (category_for ctx.mt ent.src).1
              (category_for ctx.mt ent.src).2 dst = .cont st2 ∧
             rowCounterDelta st st2 row ∧ row.source = ent.src ∧ row.status ≠ "cancelled" ∧
             (row.status = "moved" → st2.fs.files ent.src = none)) ∨
          (∃ st2 row, copyVerifyRecord ctx st ent io n (category_for ctx.mt ent.src).1
              (category_for ctx.mt ent.src).2 dst = .stopCancelled st2 ∧
             st2.manifest = st.manifest ++ [row] ∧ row.status = "cancelled" ∧
             countersEq st st2) ∨
          (∃ st2 m, copyVerifyRecord ctx st ent io n (category_for ctx.mt ent.src).1
              (category_for ctx.mt ent.src).2 dst = .fatal st2 m ∧
             st2.manifest = st.manifest ∧ countersEq st st2) := fun dst =>
        copyVerifyRecord_cases ctx st ent io n (category_for ctx.mt ent.src).1
          (category_for ctx.mt ent.src).2 dst
      by_cases hex : st.fs.pathExists (destPath ctx.session_dir ent) = true
      · by_cases hov : ctx.conflict_policy = "overwrite"
        · rw [pe_overwrite ctx st ent io n hp hm hex hov]
          rcases hcvr (destPath ctx.session_dir ent) with h | h | h
          · exact Or.inr (Or.inr (Or.inr h))
          · exact Or.inr (Or.inl h)
          · exact Or.inr (Or.inr (Or.inl h))
        · by_cases hsk : ctx.conflict_policy = "skip"
          · rw [pe_skip ctx st ent io n hp hm hex hsk]
            refine Or.inr (Or.inr (Or.inr ⟨_, _, rfl, ⟨rfl, Or.inl ⟨rfl, rfl, rfl, rfl, rfl⟩⟩,
              rfl, by simp [mkRow], fun h => absurd h (by simp [mkRow])⟩))
          · rw [pe_rename ctx st ent io n hp hm hex hov hsk]
            rcases hcvr (unique_dest_path st.fs (destPath ctx.session_dir ent)) with h | h | h
            · exact Or.inr (Or.inr (Or.inr h))
            · exact Or.inr (Or.inl h)
            · exact Or.inr (Or.inr (Or.inl h))
      · rw [Bool.not_eq_true] at hex
        rw [pe_noconflict ctx st ent io n hp hm hex]
        rcases hcvr (destPath ctx.session_dir ent) with h | h | h
        · exact Or.inr (Or.inr (Or.inr h))
        · exact Or.inr (Or.inl h)
        · exact Or.inr (Or.inr (Or.inl h))

/-- Loop equation: empty list. -/
lemma runLoop_nil (ctx : Ctx) (io : Nat → EntryIO) (st : RunState) (i : Nat) :
    runLoop ctx io st i [] = (st, .finished) := rfl

/-- Loop equation: one step. -/
lemma runLoop_cons (ctx : Ctx) (io : Nat → EntryIO) (st : RunState) (i : Nat)
    (ent : MFileEntry) (rest : List MFileEntry) :
    runLoop ctx io st i (ent :: rest) =
      match processEntry ctx st ent (io i) with
      | .cont st2 => runLoop ctx io st2 (i + 1) rest
      | .stopCancelled st2 => (st2, .cancelled)
      | .fatal st2 msg => (st2, .fatal msg) := rfl

/-- Loop equation: a continuing entry hands control to the rest of the list. -/
lemma runLoop_cons_cont (ctx : Ctx) (io : Nat → EntryIO) (st st2 : RunState) (i : Nat)
    (ent : MFileEntry) (rest : List MFileEntry)
    (h : processEntry ctx st ent (io i) = .cont st2) :
    runLoop ctx io st i (ent :: rest) = runLoop ctx io st2 (i + 1) rest := by
  rw [runLoop_cons, h]

/-- Loop equation: a cancellation breaks the loop. -/
lemma runLoop_cons_stop (ctx : Ctx) (io : Nat → EntryIO) (st st2 : RunState) (i : Nat)
    (ent : MFileEntry) (rest : List MFileEntry)
    (h : processEntry ctx st ent (io i) = .stopCancelled st2) :
    runLoop ctx io st i (ent :: rest) = (st2, .cancelled) := by
  rw [runLoop_cons, h]

/-- Loop equation: a fatal entry error aborts the loop. -/
lemma runLoop_cons_fatal (ctx : Ctx) (io : Nat → EntryIO) (st st2 : RunState) (i : Nat)
    (ent : MFileEntry) (rest : List MFileEntry) (m : String)
    (h : processEntry ctx st ent (io i) = .fatal st2 m) :
    runLoop ctx io st i (ent :: rest) = (st2, .fatal m) := by
  rw [runLoop_cons, h]

/-- A counted row bumps the counter sum by exactly one. -/
lemma rowCounterDelta_sum4 (st st2 : RunState) (row : MManifestItem)
    (h : rowCounterDelta st st2 row) :
    st2.manifest = st.manifest ++ [row] ∧ sum4 st2 = sum4 st + 1 := by
  obtain ⟨hman, h4⟩ := h
  refine ⟨hman, ?_⟩
  rcases h4 with ⟨_, a, b, c, d⟩ | ⟨_, a, b, c, d⟩ | ⟨_, a, b, c, d⟩ | ⟨_, a, b, c, d⟩ <;>
    simp [sum4, a, b, c, d] <;> omega

/-- The loop invariant: starting from a state whose counters sum to its row
count and which has no cancelled row, the loop ends with the counter sum plus
the cancelled-row count equal to the row count, and at most one cancelled
row. -/
lemma runLoop_inv (ctx : Ctx) (io : Nat → EntryIO) :
    ∀ (entries : List MFileEntry) (st : RunState) (i : Nat),
      sum4 st + countCanc st.manifest = st.manifest.length →
      countCanc st.manifest = 0 →
      (sum4 (runLoop ctx io st i entries).1 +
         countCanc (runLoop ctx io st i entries).1.manifest =
         (runLoop ctx io st i entries).1.manifest.length) ∧
      countCanc (runLoop ctx io st i entries).1.manifest ≤ 1 := by
  intro entries
  induction entries with
  | nil =>
    intro st i h1 h2
    rw [runLoop_nil]
    refine ⟨h1, ?_⟩
    show countCanc st.manifest ≤ 1
    omega
  | cons ent rest ih =>
    intro st i h1 h2
    rcases processEntry_cases ctx st ent (io i) with
      ⟨st2, heq, hman, hc, hm, hs, he⟩ | ⟨st2, row, heq, hman, hrow, hc, hm, hs, he⟩ |
      ⟨st2, m, heq, hman, hc, hm, hs, he⟩ | ⟨st2, row, heq, hdelta, _, hnc, _⟩
    · rw [runLoop_cons_stop ctx io st st2 i ent rest heq]
      have hs4 : sum4 st2 = sum4 st := by simp [sum4, hc, hm, hs, he]
      constructor
      · show sum4 st2 + countCanc st2.manifest = st2.manifest.length
        rw [hs4, hman]
        exact h1
      · show countCanc st2.manifest ≤ 1
        rw [hman, h2]
        omega
    · rw [runLoop_cons_stop ctx io st st2 i ent rest heq]
      have hs4 : sum4 st2 = sum4 st := by simp [sum4, hc, hm, hs, he]
      have hcc : countCanc st2.manifest = countCanc st.manifest + 1 := by
        rw [hman, countCanc_append_row, hrow, if_pos rfl]
      constructor
      · show sum4 st2 + countCanc st2.manifest = st2.manifest.length
        rw [hs4, hcc, hman]
        simp only [List.length_append, List.length_singleton]
        omega
      · show countCanc st2.manifest ≤ 1
        omega
    · rw [runLoop_cons_fatal ctx io st st2 i ent rest m heq]
      have hs4 : sum4 st2 = sum4 st := by simp [sum4, hc, hm, hs, he]
      constructor
      · show sum4 st2 + countCanc st2.manifest = st2.manifest.length
        rw [hs4, hman]
        exact h1
      · show countCanc st2.manifest ≤ 1
        rw [hman, h2]
        omega
    · rw [runLoop_cons_cont ctx io st st2 i ent rest heq]
      obtain ⟨hman, hs4⟩ := rowCounterDelta_sum4 st st2 row hdelta
      have hcc : countCanc st2.manifest = countCanc st.manifest := by
        rw [hman, countCanc_append_row, if_neg hnc, Nat.add_zero]
      apply ih
      · rw [hs4, hcc, hman]
        simp only [List.length_append, List.length_singleton]
        omega
      · rw [hcc]
        exact h2

/-- `afterLoop` never touches the manifest or the counters, and a returned
summary copies the final counters, with `total_files` their sum. -/
lemma afterLoop_state (sd : MPath) (sys : SysIO) (tb : Nat) (stL : RunState)
    (exit : LoopExit) (st : RunState) (r : Except String MTransferSummary)
    (h : afterLoop sd sys tb (stL, exit) = (st, r)) :
    st.manifest = stL.manifest ∧ countersEq stL st ∧
    (∀ s, r = .ok s → s.copied_files = st.copied_files ∧ s.moved_files = st.moved_files ∧
       s.skipped_files = st.skipped_files ∧ s.error_files = st.error_files ∧
       s.total_files = st.copied_files + st.moved_files + st.skipped_files +
         st.error_files) := by
  cases exit with
  | fatal msg =>
    unfold afterLoop at h
    injection h with h1 h2
    subst h1
    subst h2
    exact ⟨rfl, ⟨rfl, rfl, rfl, rfl⟩, fun s hs => by cases hs⟩
  | finished =>
    unfold afterLoop at h
    cases hw : sys.manifestWriteErr with
    | some e =>
      rw [hw] at h
      injection h with h1 h2
      subst h1
      subst h2
      exact ⟨rfl, ⟨rfl, rfl, rfl, rfl⟩, fun s hs => by cases hs⟩
    | none =>
      rw [hw] at h
      simp only at h
      injection h with h1 h2
      subst h1
      subst h2
      refine ⟨rfl, ⟨rfl, rfl, rfl, rfl⟩, fun s hs => ?_⟩
      injection hs with hs
      subst hs
      exact ⟨rfl, rfl, rfl, rfl, rfl⟩
  | cancelled =>
    unfold afterLoop at h
    cases hw : sys.manifestWriteErr with
    | some e =>
      rw [hw] at h
      injection h with h1 h2
      subst h1
      subst h2
      exact ⟨rfl, ⟨rfl, rfl, rfl, rfl⟩, fun s hs => by cases hs⟩
    | none =>
      rw [hw] at h
      simp only at h
      injection h with h1 h2
      subst h1
      subst h2
      refine ⟨rfl, ⟨rfl, rfl, rfl, rfl⟩, fun s hs => ?_⟩
      injection hs with hs
      subst hs
      exact ⟨rfl, rfl, rfl, rfl, rfl⟩

/-- `setupWrites` only writes files: manifest and counters pass through, in
both its success and its failure outcome. -/
lemma setupWrites_state (mount day run : String) (st : RunState) (sys : SysIO) :
    (∀ stS, setupWrites mount day run st sys = .ok stS →
       stS.manifest = st.manifest ∧ countersEq st stS ∧ stS.bytes_done = st.bytes_done) ∧
    (∀ stE e, setupWrites mount day run st sys = .error (stE, e) →
       stE.manifest = st.manifest ∧ countersEq st stE) := by
  constructor
  · intro stS h
    unfold setupWrites at h
    cases h1 : sys.latestWriteErr with
    | some e2 => rw [h1] at h; cases h
    | none =>
      rw [h1] at h
      cases h2 : sys.dayLatestWriteErr with
      | some e2 => rw [h2] at h; cases h
      | none =>
        rw [h2] at h
        injection h with h3
        subst h3
        exact ⟨rfl, ⟨rfl, rfl, rfl, rfl⟩, rfl⟩
  · intro stE e h
    unfold setupWrites at h
    cases h1 : sys.latestWriteErr with
    | some e2 =>
      rw [h1] at h
      injection h with h3
      cases h3
      exact ⟨rfl, rfl, rfl, rfl, rfl⟩
    | none =>
      rw [h1] at h
      cases h2 : sys.dayLatestWriteErr with
      | some e2 =>
        rw [h2] at h
        injection h with h3
        cases h3
        exact ⟨rfl, rfl, rfl, rfl, rfl⟩
      | none => rw [h2] at h; cases h

/-! ## C1: counter invariant -/

/-- C1: in every run, each fully processed entry contributes exactly one
manifest row and bumps exactly one of the four counters, so
`copied + moved + skipped + error + (1 if an entry was cancelled mid-copy)`
equals the number of rows; at most one row is `cancelled`; a returned summary
carries the same counters with `total_files` their sum; and an entry whose
cancellation is seen before it starts contributes neither a row nor a count. -/
theorem transfer_counter_invariant
    (mt : String → MimeFamily) (day runt mount : String) (items : List MPickedItem)
    (cm cp vm : String) (fs0 : FS) (io : Nat → EntryIO) (sys : SysIO)
    (st : RunState) (r : Except String MTransferSummary)
    (h : start_transfer mt day runt mount items cm cp vm fs0 io sys = (st, r)) :
    (st.copied_files + st.moved_files + st.skipped_files + st.error_files +
        countCanc st.manifest = st.manifest.length) ∧
    countCanc st.manifest ≤ 1 ∧
    (∀ s, r = .ok s →
       s.copied_files = st.copied_files ∧ s.moved_files = st.moved_files ∧
       s.skipped_files = st.skipped_files ∧ s.error_files = st.error_files ∧
       s.total_files = s.copied_files + s.moved_files + s.skipped_files + s.error_files) ∧
    (∀ ctx2 stx ent iox st2, iox.preCancel = true →
       processEntry ctx2 stx ent iox = .stopCancelled st2 →
       st2.manifest = stx.manifest ∧ st2.copied_files = stx.copied_files ∧
       st2.moved_files = stx.moved_files ∧ st2.skipped_files = stx.skipped_files ∧
       st2.error_files = stx.error_files) := by
  have hpre : ∀ (ctx2 : Ctx) (stx : RunState) (ent : MFileEntry) (iox : EntryIO)
      (st2 : RunState), iox.preCancel = true →
      processEntry ctx2 stx ent iox = .stopCancelled st2 →
      st2.manifest = stx.manifest ∧ st2.copied_files = stx.copied_files ∧
      st2.moved_files = stx.moved_files ∧ st2.skipped_files = stx.skipped_files ∧
      st2.error_files = stx.error_files := by
    intro ctx2 stx ent iox st2 hc hq
    rw [pe_preCancel ctx2 stx ent iox hc] at hq
    injection hq with hq
    subst hq
    exact ⟨rfl, rfl, rfl, rfl, rfl⟩
  unfold start_transfer at h
  cases htb : totalBytesOf fs0 (scan_entries fs0 items) 0 with
  | error e =>
    rw [htb] at h
    injection h with h1 h2
    subst h1
    subst h2
    refine ⟨by simp [initState, countCanc, sum4], by simp [initState, countCanc], ?_, hpre⟩
    intro s hs
    cases hs
  | ok tb =>
    rw [htb] at h
    cases hen : sys.ensureSessionErr with
    | some e =>
      rw [hen] at h
      injection h with h1 h2
      subst h1
      subst h2
      refine ⟨by simp [initState, countCanc, sum4], by simp [initState, countCanc], ?_, hpre⟩
      intro s hs
      cases hs
    | none =>
      rw [hen] at h
      cases hsw : setupWrites mount day runt (initState fs0) sys with
      | error p =>
        obtain ⟨stE, e⟩ := p
        rw [hsw] at h
        injection h with h1 h2
        subst h1
        subst h2
        obtain ⟨hman, hc1, hc2, hc3, hc4⟩ :=
          (setupWrites_state mount day runt (initState fs0) sys).2 stE e hsw
        have hman0 : stE.manifest = [] := hman
        refine ⟨?_, ?_, ?_, hpre⟩
        · rw [hman0, hc1, hc2, hc3, hc4]
          simp [initState, countCanc]
        · rw [hman0]
          simp [countCanc]
        · intro s hs
          cases hs
      | ok stS =>
        rw [hsw] at h
        have h2 : afterLoop (sessionDirOf mount day runt) sys tb
            (runLoop
              { mt := mt, copy_mode := cm, conflict_policy := cp,
                verify_mode := vm, session_dir := sessionDirOf mount day runt }
              io (pushEvent stS "copying") 0 (scan_entries fs0 items)) = (st, r) := h
        clear h
        obtain ⟨stL, exit, hrl⟩ : ∃ stL exit, runLoop
            { mt := mt, copy_mode := cm, conflict_policy := cp,
              verify_mode := vm, session_dir := sessionDirOf mount day runt }
            io (pushEvent stS "copying") 0 (scan_entries fs0 items) = (stL, exit) :=
          ⟨_, _, rfl⟩
        rw [hrl] at h2
        obtain ⟨hman2, hce, hsum⟩ :=
          afterLoop_state (sessionDirOf mount day runt) sys tb stL exit st r h2
        have hsetS := (setupWrites_state mount day runt (initState fs0) sys).1 stS hsw
        have hmanS : stS.manifest = (initState fs0).manifest := hsetS.1
        have hcS1 : stS.copied_files = (initState fs0).copied_files := hsetS.2.1.1
        have hcS2 : stS.moved_files = (initState fs0).moved_files := hsetS.2.1.2.1
        have hcS3 : stS.skipped_files = (initState fs0).skipped_files := hsetS.2.1.2.2.1
        have hcS4 : stS.error_files = (initState fs0).error_files := hsetS.2.1.2.2.2
        have hstart1 : sum4 (pushEvent stS "copying") +
            countCanc (pushEvent stS "copying").manifest =
            (pushEvent stS "copying").manifest.length := by
          show sum4 stS + countCanc stS.manifest = stS.manifest.length
          have hm0 : stS.manifest = [] := hmanS
          rw [hm0]
          simp [sum4, hcS1, hcS2, hcS3, hcS4, initState, countCanc]
        have hstart2 : countCanc (pushEvent stS "copying").manifest = 0 := by
          show countCanc stS.manifest = 0
          have hm0 : stS.manifest = [] := hmanS
          rw [hm0]
          simp [countCanc]
        have hinv := runLoop_inv
          { mt := mt, copy_mode := cm, conflict_policy := cp,
            verify_mode := vm, session_dir := sessionDirOf mount day runt }
          io (scan_entries fs0 items) (pushEvent stS "copying") 0 hstart1 hstart2
        rw [hrl] at hinv
        have hinvL : sum4 stL + countCanc stL.manifest = stL.manifest.length ∧
            countCanc stL.manifest ≤ 1 := hinv
        have hs4 : sum4 st = sum4 stL := by
          simp [sum4, hce.1, hce.2.1, hce.2.2.1, hce.2.2.2]
        refine ⟨?_, ?_, ?_, hpre⟩
        · show sum4 st + countCanc st.manifest = st.manifest.length
          rw [hs4, hman2]
          exact hinvL.1
        · rw [hman2]
          exact hinvL.2
        · intro s hs
          obtain ⟨a, b, c, d, e⟩ := hsum s hs
          refine ⟨a, b, c, d, ?_⟩
          rw [a, b, c, d]
          exact e

/-- The state recorded by the `skip` conflict branch. -/
def skipState (ctx : Ctx) (st : RunState) (ent : MFileEntry) (n : Nat) : RunState :=
  { st with
    skipped_files := st.skipped_files + 1,
    manifest := st.manifest ++
      [mkRow ent.src (destPath ctx.session_dir ent) (category_for ctx.mt ent.src).1
        (category_for ctx.mt ent.src).2 n "skipped" none] }

/-- Any summary a run returns has `total_files` equal to the sum of the four
counters (transfer.rs line 669). -/
lemma start_transfer_ok_total (mt : String → MimeFamily) (day runt mount : String)
    (items : List MPickedItem) (cm cp vm : String) (fs0 : FS) (io : Nat → EntryIO)
    (sys : SysIO) (st : RunState) (s : MTransferSummary)
    (h : start_transfer mt day runt mount items cm cp vm fs0 io sys = (st, .ok s)) :
    s.total_files = s.copied_files + s.moved_files + s.skipped_files + s.error_files := by
  unfold start_transfer at h
  cases htb : totalBytesOf fs0 (scan_entries fs0 items) 0 with
  | error e =>
    rw [htb] at h
    injection h with h1 h2
    cases h2
  | ok tb =>
    rw [htb] at h
    cases hen : sys.ensureSessionErr with
    | some e =>
      rw [hen] at h
      injection h with h1 h2
      cases h2
    | none =>
      rw [hen] at h
      cases hsw : setupWrites mount day runt (initState fs0) sys with
      | error p =>
        obtain ⟨stE, e⟩ := p
        rw [hsw] at h
        injection h with h1 h2
        cases h2
      | ok stS =>
        rw [hsw] at h
        have h2 : afterLoop (sessionDirOf mount day runt) sys tb
            (runLoop
              { mt := mt, copy_mode := cm, conflict_policy := cp,
                verify_mode := vm, session_dir := sessionDirOf mount day runt }
              io (pushEvent stS "copying") 0 (scan_entries fs0 items)) = (st, .ok s) := h
        clear h
        obtain ⟨stL, exit, hrl⟩ : ∃ stL exit, runLoop
            { mt := mt, copy_mode := cm, conflict_policy := cp,
              verify_mode := vm, session_dir := sessionDirOf mount day runt }
            io (pushEvent stS "copying") 0 (scan_entries fs0 items) = (stL, exit) :=
          ⟨_, _, rfl⟩
        rw [hrl] at h2
        obtain ⟨_, _, hsum⟩ :=
          afterLoop_state (sessionDirOf mount day runt) sys tb stL exit st (.ok s) h2
        obtain ⟨a, b, c, d, e⟩ := hsum s rfl
        rw [a, b, c, d]
        exact e

/-! ## C7: skip conflict policy -/

/-- C7: when the policy is `skip` and the destination exists, the entry is
recorded as `skipped` with `skipped_files` incremented, no other counter
changes, no progress event is emitted for the entry, `bytes_done` is
untouched, and the filesystem — in particular the destination file — is not
touched; and `skipped_files` counts toward the summary's `total_files`. -/
theorem skip_policy_frame :
    (∀ (ctx : Ctx) (st : RunState) (ent : MFileEntry) (io : EntryIO) (n : Nat),
       io.preCancel = false → io.srcMeta = .ok n →
       st.fs.pathExists (destPath ctx.session_dir ent) = true →
       ctx.conflict_policy = "skip" →
       processEntry ctx st ent io = .cont (skipState ctx st ent n) ∧
       (skipState ctx st ent n).fs = st.fs ∧
       (skipState ctx st ent n).events = st.events ∧
       (skipState ctx st ent n).bytes_done = st.bytes_done ∧
       (skipState ctx st ent n).skipped_files = st.skipped_files + 1 ∧
       (skipState ctx st ent n).copied_files = st.copied_files ∧
       (skipState ctx st ent n).moved_files = st.moved_files ∧
       (skipState ctx st ent n).error_files = st.error_files ∧
       (skipState ctx st ent n).manifest = st.manifest ++
         [mkRow ent.src (destPath ctx.session_dir ent) (category_for ctx.mt ent.src).1
           (category_for ctx.mt ent.src).2 n "skipped" none] ∧
       (skipState ctx st ent n).fs.files (destPath ctx.session_dir ent) =
         st.fs.files (destPath ctx.session_dir ent)) ∧
    (∀ (mt : String → MimeFamily) (day runt mount : String) (items : List MPickedItem)
       (cm cp vm : String) (fs0 : FS) (io : Nat → EntryIO) (sys : SysIO)
       (st : RunState) (s : MTransferSummary),
       start_transfer mt day runt mount items cm cp vm fs0 io sys = (st, .ok s) →
       s.total_files = s.copied_files + s.moved_files + s.skipped_files + s.error_files) := by
  constructor
  · intro ctx st ent io n hp hm hex hcp
    exact ⟨pe_skip ctx st ent io n hp hm hex hcp, rfl, rfl, rfl, rfl, rfl, rfl, rfl, rfl, rfl⟩
  · exact start_transfer_ok_total

/-! ## Witness worlds for the executor claims -/

/-- A world with one loose source file of five bytes and a free destination. -/
def fsW : FS :=
  { files := fun p => if p = ["srcdir", "f.txt"] then some (.bytes [1, 2, 3, 4, 5]) else none,
    isFile := fun p => p == ["srcdir", "f.txt"],
    dirs := fun _ => false,
    walk := fun _ => [],
    meta := fun _ => .ok 5,
    pathExists := fun _ => false }

/-- One loose file pick. -/
def itemsW : List MPickedItem := [{ kind := "file", path := ["srcdir", "f.txt"] }]

/-- An all-success per-entry oracle. -/
def ioOkW : Nat → EntryIO := fun _ =>
  { preCancel := false, srcMeta := .ok 5, copy := .ok [1, 2, 3, 4, 5], copyEmits := 0,
    bytesCopied := 5, dstMetaLen := .ok 5, shaSrc := .ok "h", shaDst := .ok "h",
    removeErr := none }

/-- An all-success run-level oracle. -/
def sysW : SysIO :=
  { ensureSessionErr := none, readmeWriteErr := none, latestWriteErr := none,
    dayLatestWriteErr := none, manifestWriteErr := none, finalCancel := false,
    startedAt := "s", finishedAt := "f", durationMs := 1 }

/-- The all-success witness run. -/
def runW : RunState × Except String MTransferSummary :=
  start_transfer mimeW "2025-01-01" "120000" "mnt" itemsW "copy" "rename" "none" fsW ioOkW sysW

/-- Witness for C1: on the all-success run, the counters and the manifest
row count balance, with at most one cancelled row. -/
theorem transfer_counter_invariant_witness :
    runW.1.copied_files + runW.1.moved_files + runW.1.skipped_files + runW.1.error_files +
        countCanc runW.1.manifest = runW.1.manifest.length ∧
    countCanc runW.1.manifest ≤ 1 := by
  have h := transfer_counter_invariant mimeW "2025-01-01" "120000" "mnt" itemsW
    "copy" "rename" "none" fsW ioOkW sysW runW.1 runW.2 rfl
  exact ⟨h.1, h.2.1⟩

/-- Context for the skip-policy witness. -/
def ctxSkipW : Ctx :=
  { mt := mimeW, copy_mode := "copy", conflict_policy := "skip",
    verify_mode := "none", session_dir := ["sess"] }

/-- A world where the destination of the witness entry already exists. -/
def fsSkipW : FS :=
  { files := fun p => if p = ["sess", "Files", "f.txt"] then some (.bytes [7]) else none,
    isFile := fun _ => true,
    dirs := fun _ => false,
    walk := fun _ => [],
    meta := fun _ => .ok 5,
    pathExists := fun p => p == ["sess", "Files", "f.txt"] }

/-- The loose-file entry of the witness worlds. -/
def entFileW : MFileEntry := { src := ["srcdir", "f.txt"], folder_rel := none }

/-- The summary of the all-success witness run. -/
def sumW : MTransferSummary :=
  { started_at := "s", finished_at := "f", duration_ms := 1, total_files := 1,
    total_bytes := 5, copied_files := 1, moved_files := 0, skipped_files := 0,
    error_files := 0, output_session_dir := ["mnt", "Transfers", "2025-01-01", "120000"] }

/-- Witness for C7: skipping the existing `sess/Files/f.txt` leaves the
filesystem untouched, bumps only `skipped_files`, and the all-success run's
summary has `total_files` equal to the counter sum. -/
theorem skip_policy_frame_witness :
    processEntry ctxSkipW (initState fsSkipW) entFileW (ioOkW 0) =
      .cont (skipState ctxSkipW (initState fsSkipW) entFileW 5) ∧
    (skipState ctxSkipW (initState fsSkipW) entFileW 5).fs.files ["sess", "Files", "f.txt"] =
      some (.bytes [7]) ∧
    (skipState ctxSkipW (initState fsSkipW) entFileW 5).skipped_files = 1 ∧
    (skipState ctxSkipW (initState fsSkipW) entFileW 5).events = [] ++ ["scanning"] ∧
    sumW.total_files = sumW.copied_files + sumW.moved_files + sumW.skipped_files +
      sumW.error_files := by
  have h := skip_policy_frame.1 ctxSkipW (initState fsSkipW) entFileW (ioOkW 0) 5
    rfl rfl (by decide) rfl
  have hok : runW.2 = Except.ok sumW := by
    have h0 : runW.2.toOption = some sumW := by decide
    cases hr : runW.2 with
    | error e => rw [hr] at h0; cases h0
    | ok s =>
      rw [hr] at h0
      simp only [Except.toOption, Option.some.injEq] at h0
      rw [h0]
  have h2 := skip_policy_frame.2 mimeW "2025-01-01" "120000" "mnt" itemsW
    "copy" "rename" "none" fsW ioOkW sysW runW.1 sumW
    (by rw [← hok]; exact Prod.mk.eta.symm)
  exact ⟨h.1, by decide, by decide, by decide, h2⟩

/-- The state a continuing step produced, if it continued. -/
def contState : StepOut → Option RunState
  | .cont st => some st
  | _ => none

/-! ## C3: per-entry failures are downgraded to error rows -/

/-- C3: each of the three per-entry failure kinds — a copy I/O failure, a
verification mismatch (size or sha256), or a post-move source-deletion
failure — yields a `cont` outcome whose appended manifest row has status
`error` and a human-readable message, incrementing `error_files`; and a
`cont` outcome always lets the loop proceed to the remaining entries, so no
such failure aborts the run. -/
theorem per_entry_errors_downgraded :
    (∀ (ctx : Ctx) (st : RunState) (ent : MFileEntry) (io : EntryIO) (n : Nat)
       (msg : String) (w : Option (List Nat)),
       io.preCancel = false → io.srcMeta = .ok n →
       st.fs.pathExists (destPath ctx.session_dir ent) = false →
       io.copy = .ioErr msg w →
       ∃ st2 row, processEntry ctx st ent io = .cont st2 ∧
         st2.manifest = st.manifest ++ [row] ∧ row.status = "error" ∧
         row.error = some msg ∧ st2.error_files = st.error_files + 1) ∧
    (∀ (ctx : Ctx) (st : RunState) (ent : MFileEntry) (io : EntryIO) (n : Nat)
       (w : List Nat) (dlen : Nat),
       io.preCancel = false → io.srcMeta = .ok n →
       st.fs.pathExists (destPath ctx.session_dir ent) = false →
       ctx.verify_mode = "size" → io.copy = .ok w → io.dstMetaLen = .ok dlen →
       dlen ≠ n →
       ∃ st2 row, processEntry ctx st ent io = .cont st2 ∧
         st2.manifest = st.manifest ++ [row] ∧ row.status = "error" ∧
         row.error = some "verify failed: size mismatch" ∧
         st2.error_files = st.error_files + 1) ∧
    (∀ (ctx : Ctx) (st : RunState) (ent : MFileEntry) (io : EntryIO) (n : Nat)
       (w : List Nat) (a b : String),
       io.preCancel = false → io.srcMeta = .ok n →
       st.fs.pathExists (destPath ctx.session_dir ent) = false →
       ctx.verify_mode = "sha256" → io.copy = .ok w → io.shaSrc = .ok a →
       io.shaDst = .ok b → a ≠ b →
       ∃ st2 row, processEntry ctx st ent io = .cont st2 ∧
         st2.manifest = st.manifest ++ [row] ∧ row.status = "error" ∧
         row.error = some "verify failed: sha256 mismatch" ∧
         st2.error_files = st.error_files + 1) ∧
    (∀ (ctx : Ctx) (st : RunState) (ent : MFileEntry) (io : EntryIO) (n : Nat)
       (w : List Nat) (e : String),
       io.preCancel = false → io.srcMeta = .ok n →
       st.fs.pathExists (destPath ctx.session_dir ent) = false →
       ctx.verify_mode ≠ "size" → ctx.verify_mode ≠ "sha256" →
       ctx.copy_mode = "move" → io.copy = .ok w → io.removeErr = some e →
       ∃ st2 row, processEntry ctx st ent io = .cont st2 ∧
         st2.manifest = st.manifest ++ [row] ∧ row.status = "error" ∧
         row.error = some ("move cleanup failed: " ++ e) ∧
         st2.error_files = st.error_files + 1) ∧
    (∀ (ctx : Ctx) (io2 : Nat → EntryIO) (st st2 : RunState) (i : Nat)
       (ent : MFileEntry) (rest : List MFileEntry),
       processEntry ctx st ent (io2 i) = .cont st2 →
       runLoop ctx io2 st i (ent :: rest) = runLoop ctx io2 st2 (i + 1) rest) := by
  refine ⟨?_, ?_, ?_, ?_, ?_⟩
  · intro ctx st ent io n msg w hp hm hex hc
    rw [pe_noconflict ctx st ent io n hp hm hex]
    cases w with
    | some wb =>
      rw [cvr_ioErr_some ctx st ent io n _ _ _ msg wb hc, moveRecord_some]
      exact ⟨_, _, rfl, rfl, rfl, rfl, rfl⟩
    | none =>
      rw [cvr_ioErr_none ctx st ent io n _ _ _ msg hc, moveRecord_some]
      exact ⟨_, _, rfl, rfl, rfl, rfl, rfl⟩
  · intro ctx st ent io n w dlen hp hm hex hv hc hd hne
    rw [pe_noconflict ctx st ent io n hp hm hex,
      cvr_size_ok ctx st ent io n _ _ _ w dlen hc hv hd, if_pos hne, moveRecord_some]
    exact ⟨_, _, rfl, rfl, rfl, rfl, rfl⟩
  · intro ctx st ent io n w a b hp hm hex hv hc ha hb hab
    rw [pe_noconflict ctx st ent io n hp hm hex,
      cvr_sha_ok ctx st ent io n _ _ _ w a b hc hv ha hb, if_pos hab, moveRecord_some]
    exact ⟨_, _, rfl, rfl, rfl, rfl, rfl⟩
  · intro ctx st ent io n w e hp hm hex hv1 hv2 hmv hc hr
    rw [pe_noconflict ctx st ent io n hp hm hex,
      cvr_noverify ctx st ent io n _ _ _ w hc hv1 hv2,
      moveRecord_move_fail _ _ _ _ _ _ _ _ e hmv hr]
    exact ⟨_, _, rfl, rfl, rfl, rfl, rfl⟩
  · intro ctx io2 st st2 i ent rest hc
    exact runLoop_cons_cont ctx io2 st st2 i ent rest hc

/-- A context with no verification under the rename policy. -/
def ctxPlainW : Ctx :=
  { mt := mimeW, copy_mode := "copy", conflict_policy := "rename",
    verify_mode := "none", session_dir := ["sess"] }

/-- The all-success oracle with a failing streamed copy. -/
def ioErrW : EntryIO := { ioOkW 0 with copy := .ioErr "read error: boom" none }

/-- Witness for C3: a copy I/O failure yields one `error` row with the copy
error message and bumps `error_files`, and the loop still finishes. -/
theorem per_entry_errors_downgraded_witness :
    (contState (processEntry ctxPlainW (initState fsW) entFileW ioErrW)).map
        (fun s2 => (s2.error_files, s2.manifest.map (fun r => (r.status, r.error)))) =
      some (1, [("error", some "read error: boom")]) ∧
    (runLoop ctxPlainW (fun _ => ioErrW) (initState fsW) 0 [entFileW]).2 = .finished := by
  obtain ⟨st2, row, heq, hman, hrow, herr, hef⟩ :=
    per_entry_errors_downgraded.1 ctxPlainW (initState fsW) entFileW ioErrW 5
      "read error: boom" none rfl rfl (by decide) rfl
  constructor
  · rw [heq]
    simp only [contState, Option.map_some', Option.some.injEq]
    rw [hef, hman]
    simp [initState, hrow, herr]
  · decide

/-! ## C4: move-mode deletion failure and success -/

/-- C4: in move mode, when copy and verification succeeded but deleting the
source fails, the row is an `error` (not `moved`), `error_files` is bumped,
the destination copy stays in place and the source file still exists;
conversely, a `moved` row means the source path no longer exists. -/
theorem move_deletion_failure :
    (∀ (ctx : Ctx) (st : RunState) (ent : MFileEntry) (io : EntryIO) (n : Nat)
       (w : List Nat) (e : String) (c : FileData),
       io.preCancel = false → io.srcMeta = .ok n →
       st.fs.pathExists (destPath ctx.session_dir ent) = false →
       ctx.verify_mode ≠ "size" → ctx.verify_mode ≠ "sha256" →
       ctx.copy_mode = "move" → io.copy = .ok w → io.removeErr = some e →
       ent.src ≠ destPath ctx.session_dir ent →
       st.fs.files ent.src = some c →
       ∃ st2 row, processEntry ctx st ent io = .cont st2 ∧
         st2.manifest = st.manifest ++ [row] ∧ row.status = "error" ∧
         row.error = some ("move cleanup failed: " ++ e) ∧
         st2.error_files = st.error_files + 1 ∧ st2.moved_files = st.moved_files ∧
         st2.fs.files (destPath ctx.session_dir ent) = some (.bytes w) ∧
         st2.fs.files ent.src = some c) ∧
    (∀ (ctx : Ctx) (st : RunState) (ent : MFileEntry) (io : EntryIO)
       (st2 : RunState) (row : MManifestItem),
       processEntry ctx st ent io = .cont st2 →
       st2.manifest = st.manifest ++ [row] → row.status = "moved" →
       st2.fs.files ent.src = none) := by
  constructor
  · intro ctx st ent io n w e c hp hm hex hv1 hv2 hmv hc hr hne hsrc
    rw [pe_noconflict ctx st ent io n hp hm hex,
      cvr_noverify ctx st ent io n _ _ _ w hc hv1 hv2,
      moveRecord_move_fail _ _ _ _ _ _ _ _ e hmv hr]
    refine ⟨_, _, rfl, rfl, rfl, rfl, rfl, rfl, ?_, ?_⟩
    · show (withWrite (postCopyBase st io) (destPath ctx.session_dir ent) w).fs.files
        (destPath ctx.session_dir ent) = some (.bytes w)
      simp [withWrite, FS.writeFile]
    · show (withWrite (postCopyBase st io) (destPath ctx.session_dir ent) w).fs.files
        ent.src = some c
      simp only [withWrite, FS.writeFile, postCopyBase]
      rw [if_neg hne]
      exact hsrc
  · intro ctx st ent io st2 row hcont hman hrow
    rcases processEntry_cases ctx st ent io with
      ⟨st2x, heq, _⟩ | ⟨st2x, rowx, heq, _⟩ | ⟨st2x, m, heq, _⟩ |
      ⟨st2x, rowx, heq, hdelta, _, _, hmv⟩
    · rw [hcont] at heq
      cases heq
    · rw [hcont] at heq
      cases heq
    · rw [hcont] at heq
      cases heq
    · rw [hcont] at heq
      injection heq with heq2
      subst heq2
      have h3 : st.manifest ++ [rowx] = st.manifest ++ [row] := by
        rw [← hdelta.1, hman]
      have h4 : rowx = row := by
        have h5 := List.append_cancel_left h3
        simpa using h5
      subst h4
      exact hmv hrow

/-- A move-mode context without verification. -/
def ctxMoveW : Ctx :=
  { mt := mimeW, copy_mode := "move", conflict_policy := "rename",
    verify_mode := "none", session_dir := ["sess"] }

/-- The all-success oracle with a failing source deletion. -/
def ioMoveFailW : EntryIO := { ioOkW 0 with removeErr := some "denied" }

/-- Witness for C4: a failed deletion leaves an `error` row, the destination
copy and the source file; a successful move removes the source. -/
theorem move_deletion_failure_witness :
    (contState (processEntry ctxMoveW (initState fsW) entFileW ioMoveFailW)).map
        (fun s2 => (s2.manifest.map (fun r => (r.status, r.error)), s2.error_files,
          s2.moved_files, s2.fs.files ["sess", "Files", "f.txt"],
          s2.fs.files ["srcdir", "f.txt"])) =
      some ([("error", some "move cleanup failed: denied")], 1, 0,
        some (.bytes [1, 2, 3, 4, 5]), some (.bytes [1, 2, 3, 4, 5])) ∧
    (contState (processEntry ctxMoveW (initState fsW) entFileW (ioOkW 0))).map
        (fun s2 => s2.fs.files ["srcdir", "f.txt"]) = some none := by
  constructor
  · obtain ⟨st2, row, heq, hman, hrow, herr, hef, hmf, hdst, hsrc⟩ :=
      move_deletion_failure.1 ctxMoveW (initState fsW) entFileW ioMoveFailW 5
        [1, 2, 3, 4, 5] "denied" (.bytes [1, 2, 3, 4, 5]) rfl rfl (by decide) (by decide)
        (by decide) rfl rfl rfl (by decide) (by decide)
    have hdst2 : st2.fs.files ["sess", "Files", "f.txt"] = some (.bytes [1, 2, 3, 4, 5]) := hdst
    have hsrc2 : st2.fs.files ["srcdir", "f.txt"] = some (.bytes [1, 2, 3, 4, 5]) := hsrc
    rw [heq]
    simp only [contState, Option.map_some', Option.some.injEq]
    rw [hman, hef, hmf]
    simp [initState, hrow, herr, hdst2, hsrc2]
  · have heq := pe_noconflict ctxMoveW (initState fsW) entFileW (ioOkW 0) 5 rfl rfl (by decide)
    rw [cvr_noverify ctxMoveW (initState fsW) entFileW (ioOkW 0) 5 _ _ _ [1, 2, 3, 4, 5]
        rfl (by decide) (by decide),
      moveRecord_move_ok _ _ _ _ _ _ _ _ rfl rfl] at heq
    have h2 := move_deletion_failure.2 ctxMoveW (initState fsW) entFileW (ioOkW 0) _ _
      heq rfl rfl
    rw [heq]
    simp only [contState, Option.map_some', Option.some.injEq]
    exact h2

/-! ## C10: verification I/O failures are fatal -/

/-- C10: an I/O failure during verification — reading destination metadata in
size mode, or hashing either file in sha256 mode — makes the entry step
fatal, recording no manifest row and touching no counter; a fatal step makes
the whole loop return that error; and a run whose loop ends fatally returns
`Except.error` — no summary and no `manifest.json` write (the returned state
is the loop state itself). -/
theorem verify_io_failure_fatal :
    (∀ (ctx : Ctx) (st : RunState) (ent : MFileEntry) (io : EntryIO) (n : Nat)
       (w : List Nat) (e : String),
       io.preCancel = false → io.srcMeta = .ok n →
       st.fs.pathExists (destPath ctx.session_dir ent) = false →
       ctx.verify_mode = "size" → io.copy = .ok w → io.dstMetaLen = .error e →
       processEntry ctx st ent io =
         .fatal (withWrite (postCopyBase st io) (destPath ctx.session_dir ent) w)
           ("dst metadata error: " ++ e) ∧
       (withWrite (postCopyBase st io) (destPath ctx.session_dir ent) w).manifest =
         st.manifest ∧
       countersEq st (withWrite (postCopyBase st io) (destPath ctx.session_dir ent) w)) ∧
    (∀ (ctx : Ctx) (st : RunState) (ent : MFileEntry) (io : EntryIO) (n : Nat)
       (w : List Nat) (e : String),
       io.preCancel = false → io.srcMeta = .ok n →
       st.fs.pathExists (destPath ctx.session_dir ent) = false →
       ctx.verify_mode = "sha256" → io.copy = .ok w → io.shaSrc = .error e →
       processEntry ctx st ent io =
         .fatal (pushEvent (withWrite (postCopyBase st io)
           (destPath ctx.session_dir ent) w) "verifying") e ∧
       (pushEvent (withWrite (postCopyBase st io) (destPath ctx.session_dir ent) w)
         "verifying").manifest = st.manifest) ∧
    (∀ (ctx : Ctx) (st : RunState) (ent : MFileEntry) (io : EntryIO) (n : Nat)
       (w : List Nat) (a e : String),
       io.preCancel = false → io.srcMeta = .ok n →
       st.fs.pathExists (destPath ctx.session_dir ent) = false →
       ctx.verify_mode = "sha256" → io.copy = .ok w → io.shaSrc = .ok a →
       io.shaDst = .error e →
       processEntry ctx st ent io =
         .fatal (pushEvent (withWrite (postCopyBase st io)
           (destPath ctx.session_dir ent) w) "verifying") e) ∧
    (∀ (ctx : Ctx) (io2 : Nat → EntryIO) (st st2 : RunState) (i : Nat)
       (ent : MFileEntry) (rest : List MFileEntry) (m : String),
       processEntry ctx st ent (io2 i) = .fatal st2 m →
       runLoop ctx io2 st i (ent :: rest) = (st2, .fatal m)) ∧
    (∀ (mt : String → MimeFamily) (day runt mount : String) (items : List MPickedItem)
       (cm cp vm : String) (fs0 : FS) (io : Nat → EntryIO) (sys : SysIO)
       (tb : Nat) (stS stL : RunState) (m : String),
       totalBytesOf fs0 (scan_entries fs0 items) 0 = .ok tb →
       sys.ensureSessionErr = none →
       setupWrites mount day runt (initState fs0) sys = .ok stS →
       runLoop
           { mt := mt, copy_mode := cm, conflict_policy := cp, verify_mode := vm,
             session_dir := sessionDirOf mount day runt }
           io (pushEvent stS "copying") 0 (scan_entries fs0 items) = (stL, .fatal m) →
       start_transfer mt day runt mount items cm cp vm fs0 io sys = (stL, .error m)) := by
  refine ⟨?_, ?_, ?_, ?_, ?_⟩
  · intro ctx st ent io n w e hp hm hex hv hc hd
    rw [pe_noconflict ctx st ent io n hp hm hex,
      cvr_size_fatal ctx st ent io n _ _ _ w e hc hv hd]
    exact ⟨rfl, rfl, rfl, rfl, rfl, rfl⟩
  · intro ctx st ent io n w e hp hm hex hv hc ha
    rw [pe_noconflict ctx st ent io n hp hm hex,
      cvr_sha_src_fatal ctx st ent io n _ _ _ w e hc hv ha]
    exact ⟨rfl, rfl⟩
  · intro ctx st ent io n w a e hp hm hex hv hc ha hb
    rw [pe_noconflict ctx st ent io n hp hm hex,
      cvr_sha_dst_fatal ctx st ent io n _ _ _ w a e hc hv ha hb]
  · intro ctx io2 st st2 i ent rest m hq
    exact runLoop_cons_fatal ctx io2 st st2 i ent rest m hq
  · intro mt day runt mount items cm cp vm fs0 io sys tb stS stL m htb hen hsw hrl
    unfold start_transfer
    rw [htb, hen]
    show (match setupWrites mount day runt (initState fs0) sys with
      | .error (st, e) => (st, .error e)
      | .ok st =>
        afterLoop (sessionDirOf mount day runt) sys tb
          (runLoop
            { mt := mt, copy_mode := cm, conflict_policy := cp,
              verify_mode := vm, session_dir := sessionDirOf mount day runt }
            io (pushEvent st "copying") 0 (scan_entries fs0 items))) = (stL, .error m)
    rw [hsw]
    show afterLoop (sessionDirOf mount day runt) sys tb
      (runLoop
        { mt := mt, copy_mode := cm, conflict_policy := cp,
          verify_mode := vm, session_dir := sessionDirOf mount day runt }
        io (pushEvent stS "copying") 0 (scan_entries fs0 items)) = (stL, .error m)
    rw [hrl]
    rfl

/-- A size-verification context for the fatal-verification witness. -/
def ctxSizeW : Ctx :=
  { mt := mimeW, copy_mode := "copy", conflict_policy := "rename",
    verify_mode := "size", session_dir := ["sess"] }

/-- Size-verification context over the witness run's session directory. -/
def ctxRunW : Ctx :=
  { mt := mimeW, copy_mode := "copy", conflict_policy := "rename",
    verify_mode := "size", session_dir := sessionDirOf "mnt" "2025-01-01" "120000" }

/-- The all-success oracle with a failing destination metadata read. -/
def ioDstFailW : EntryIO := { ioOkW 0 with dstMetaLen := .error "io" }

/-- The state after the witness run's setup writes. -/
def stSW : RunState :=
  { initState fsW with
    fs := dayLatestFS "mnt" "2025-01-01" "120000"
      (latestFS "mnt" "2025-01-01" "120000" (readmeFS "mnt" (initState fsW).fs sysW)) }

/-- Witness for C10: a failing destination metadata read in size mode makes
the entry step fatal, and the whole run returns the error instead of a
summary. -/
theorem verify_io_failure_fatal_witness :
    processEntry ctxSizeW (initState fsW) entFileW ioDstFailW =
      .fatal (withWrite (postCopyBase (initState fsW) ioDstFailW)
        (destPath ["sess"] entFileW) [1, 2, 3, 4, 5]) ("dst metadata error: " ++ "io") ∧
    (start_transfer mimeW "2025-01-01" "120000" "mnt" itemsW "copy" "rename" "size" fsW
      (fun _ => ioDstFailW) sysW).2 = .error ("dst metadata error: " ++ "io") := by
  constructor
  · exact (verify_io_failure_fatal.1 ctxSizeW (initState fsW) entFileW ioDstFailW 5
      [1, 2, 3, 4, 5] "io" rfl rfl (by decide) rfl rfl rfl).1
  · have hfatal := (verify_io_failure_fatal.1 ctxRunW (pushEvent stSW "copying") entFileW
      ioDstFailW 5 [1, 2, 3, 4, 5] "io" rfl rfl (by decide) rfl rfl rfl).1
    have hrl : runLoop ctxRunW (fun _ => ioDstFailW) (pushEvent stSW "copying") 0
        (scan_entries fsW itemsW) =
        (withWrite (postCopyBase (pushEvent stSW "copying") ioDstFailW)
          (destPath ctxRunW.session_dir entFileW) [1, 2, 3, 4, 5],
         .fatal ("dst metadata error: " ++ "io")) := by
      have hscan : scan_entries fsW itemsW = [entFileW] := by decide
      rw [hscan]
      exact runLoop_cons_fatal ctxRunW (fun _ => ioDstFailW) _ _ 0 entFileW [] _ hfatal
    have hrun := verify_io_failure_fatal.2.2.2.2 mimeW "2025-01-01" "120000" "mnt" itemsW
      "copy" "rename" "size" fsW (fun _ => ioDstFailW) sysW 5 stSW _ _
      rfl rfl rfl hrl
    rw [hrun]
